import Mathlib

/-!
Verification development for the Rival-Scan orchestration and
context-aggregation subsystem.

The Python sources are shallowly embedded:

* JSON values (Python dicts / lists / scalars flowing between agents) are the
  inductive type `JVal`; Python dicts are insertion-ordered association lists.
* Machine floats are modelled as exact rationals (`ℚ`); `round(x, 2)` is
  modelled as round-half-to-even on rationals.
* Wall-clock timestamps are modelled as integers (one unit = one hour, the
  unit used by `expires_in_hours`); ISO-8601 string comparison in SQL is
  chronological comparison, so the integer order is faithful.
* SQLite tables are lists of rows; `INSERT OR REPLACE` on a UNIQUE key
  removes the conflicting rows and appends the fresh row.
* External collaborators (the agent registry clients, the hash library, the
  generative agent service) are parameters of the model, exactly as the
  specification treats them as external capabilities.
-/

namespace RivalScan

/-! ## Python string helpers (kernel-reducible replacements) -/

/-- Python substring test `sub in s`. -/
def pyIn (sub s : String) : Bool := decide (sub.toList <:+: s.toList)

/-- Python `str.lower()` (ASCII case folding, as used by the router). -/
def pyLower (s : String) : String := ⟨s.data.map Char.toLower⟩

/-- Characters removed by Python `str.strip()` with no argument. -/
def pyIsSpace (c : Char) : Bool :=
  c = ' ' || c = '\t' || c = '\n' || c = '\r' || c = '\x0b' || c = '\x0c'

/-- Python `str.strip()`. -/
def pyStrip (s : String) : String :=
  ⟨((s.data.dropWhile pyIsSpace).reverse.dropWhile pyIsSpace).reverse⟩

/-- First `n` characters of a string (Python slice `s[:n]`). -/
def strTake (s : String) (n : Nat) : String := ⟨s.data.take n⟩

/-! ## Sorting (insertion sort; kernel-reducible stand-in for SQL ORDER BY) -/

def insertBy {α : Type} (le : α → α → Bool) (a : α) : List α → List α
  | [] => [a]
  | b :: bs => if le a b then a :: b :: bs else b :: insertBy le a bs

def sortBy {α : Type} (le : α → α → Bool) : List α → List α
  | [] => []
  | a :: as => insertBy le a (sortBy le as)

theorem mem_insertBy {α : Type} (le : α → α → Bool) (a x : α) (l : List α) :
    x ∈ insertBy le a l ↔ x = a ∨ x ∈ l := by
  induction l with
  | nil => simp [insertBy]
  | cons b bs ih =>
    simp only [insertBy]
    split
    · simp [List.mem_cons]
    · simp only [List.mem_cons, ih]
      tauto

theorem mem_sortBy {α : Type} (le : α → α → Bool) (x : α) (l : List α) :
    x ∈ sortBy le l ↔ x ∈ l := by
  induction l with
  | nil => simp [sortBy]
  | cons b bs ih => simp [sortBy, mem_insertBy, ih, List.mem_cons]

theorem length_insertBy {α : Type} (le : α → α → Bool) (a : α) (l : List α) :
    (insertBy le a l).length = l.length + 1 := by
  induction l with
  | nil => simp [insertBy]
  | cons b bs ih =>
    simp only [insertBy]
    split <;> simp [ih]

theorem length_sortBy {α : Type} (le : α → α → Bool) (l : List α) :
    (sortBy le l).length = l.length := by
  induction l with
  | nil => rfl
  | cons b bs ih => simp [sortBy, length_insertBy, ih]

theorem sortBy_perm {α : Type} (le : α → α → Bool) (l : List α) :
    (sortBy le l).Perm l := by
  induction l with
  | nil => simp [sortBy]
  | cons b bs ih =>
    have h1 : (insertBy le b (sortBy le bs)).Perm (b :: sortBy le bs) := by
      clear ih
      induction sortBy le bs with
      | nil => simp [insertBy]
      | cons c cs ih2 =>
        simp only [insertBy]
        split
        · exact List.Perm.refl _
        · exact ih2.cons c |>.trans (List.Perm.swap b c cs)
    exact h1.trans (ih.cons b)

/-! ## Rounding

Python `round(x, 2)` rounds half to even. The scores produced by the code
are simple rationals, for which IEEE-754 double rounding agrees with exact
rational round-half-to-even. -/

/-- Round a rational to the nearest integer, ties to even. -/
def roundHalfEven (q : ℚ) : ℤ :=
  if q - ⌊q⌋ < 1/2 then ⌊q⌋
  else if 1/2 < q - ⌊q⌋ then ⌊q⌋ + 1
  else if ⌊q⌋ % 2 = 0 then ⌊q⌋ else ⌊q⌋ + 1

/-- Python `round(q, 2)`. -/
def round2 (q : ℚ) : ℚ := (roundHalfEven (100 * q) : ℚ) / 100

/-! ## JSON values -/

/-- JSON-serializable Python values (dicts are insertion-ordered key/value
lists). Numbers are exact rationals. -/
inductive JVal where
  | null
  | bool (b : Bool)
  | num (q : ℚ)
  | str (s : String)
  | arr (xs : List JVal)
  | obj (kvs : List (String × JVal))

/-- Python dict contents. -/
abbrev JObj := List (String × JVal)

/-- Python `d[k]` / `d.get(k)`: the value at the first (unique) occurrence of
the key. -/
def jget (kvs : JObj) (k : String) : Option JVal :=
  (kvs.find? (fun p => p.1 == k)).map (·.2)

/-- Python `k in d`. -/
def jhasKey (kvs : JObj) (k : String) : Bool := kvs.any (fun p => p.1 == k)

/-- Python dict assignment `d[k] = v`: overwrite in place, else append. -/
def jset (kvs : JObj) (k : String) (v : JVal) : JObj :=
  if jhasKey kvs k then kvs.map (fun p => if p.1 == k then (k, v) else p)
  else kvs ++ [(k, v)]

/-- Python truthiness of a JSON value. -/
def JVal.truthy : JVal → Bool
  | .null => false
  | .bool b => b
  | .num q => q != 0
  | .str s => s != ""
  | .arr xs => !xs.isEmpty
  | .obj kvs => !kvs.isEmpty

/-- Python `v == lit` for a string literal `lit` (false for non-strings). -/
def JVal.eqStr : JVal → String → Bool
  | .str t, s => t == s
  | _, _ => false

/-- Python `x or y`. -/
def pyOrElse (v d : JVal) : JVal := if v.truthy then v else d

/-- Python `repr` of a JSON value. Container rendering follows the dict/list
repr shape; the shortest-repr formatting of floats is abstracted by printing
the exact rational. -/
def pyRepr : JVal → String
  | .null => "None"
  | .bool b => if b then "True" else "False"
  | .num q => if q.den = 1 then toString q.num else toString q
  | .str s => "'" ++ s ++ "'"
  | .arr xs => "[" ++ String.intercalate ", " (xs.attach.map fun ⟨v, _⟩ => pyRepr v) ++ "]"
  | .obj kvs =>
      "\x7b" ++ String.intercalate ", " (kvs.attach.map fun ⟨p, _⟩ => "'" ++ p.1 ++ "': " ++ pyRepr p.2) ++ "\x7d"
decreasing_by
  · simp_wf
    have := List.sizeOf_lt_of_mem ‹v ∈ xs›
    omega
  · simp_wf
    have := List.sizeOf_lt_of_mem ‹p ∈ kvs›
    cases p
    simp at this ⊢
    omega

/-- Python `str(v)`: the string itself for strings, `repr` otherwise. -/
def pyStr : JVal → String
  | .str s => s
  | v => pyRepr v

/-! ## core/a2a_router.py -/

/-- The `AgentType` enumeration. -/
inductive AgentType where
  | PRICING_CHANGE
  | PRODUCT_LAUNCH
  | SENTIMENT
  | COMPANY_OVERVIEW
  | REVENUE_TURNOVER
deriving DecidableEq

/-- The `.value` of each `AgentType` member. -/
def AgentType.value : AgentType → String
  | .PRICING_CHANGE => "pricing_change"
  | .PRODUCT_LAUNCH => "product_launch"
  | .SENTIMENT => "sentiment"
  | .COMPANY_OVERVIEW => "company_overview"
  | .REVENUE_TURNOVER => "revenue_turnover"

/-- Iteration order of the enumeration (`for at in AgentType`). -/
def allAgentTypes : List AgentType :=
  [.PRICING_CHANGE, .PRODUCT_LAUNCH, .SENTIMENT, .COMPANY_OVERVIEW, .REVENUE_TURNOVER]

theorem AgentType.value_injective :
    ∀ a b : AgentType, a.value = b.value → a = b := by
  intro a b h
  cases a <;> cases b <;> first | rfl | (simp [AgentType.value] at h)

/-- The routing dictionaries built by `A2AAgentRouter._setup_routing`. -/
def routing_map : AgentType → JObj
  | .COMPANY_OVERVIEW =>
      [("agent_name", .str "agent_ac"), ("tool", .str "company_profile"),
       ("description", .str "Company Overview Agent - provides company profile, industry, HQ, products")]
  | .REVENUE_TURNOVER =>
      [("agent_name", .str "agent_at"), ("tool", .str "financial_analysis"),
       ("description", .str "Revenue/Turnover Agent - provides financial metrics, annual turnover, growth rates")]
  | .PRICING_CHANGE =>
      [("agent_name", .str "agent_pc"), ("tool", .str "price_changes"),
       ("description", .str "Pricing Change Agent - detects recent price changes for company products")]
  | .PRODUCT_LAUNCH =>
      [("agent_name", .str "agent_sc"), ("fallback", .str "agent_pl"),
       ("tool", .str "product_launches"),
       ("description", .str "Product Launch Agent - tracks new product launches and announcements")]
  | .SENTIMENT =>
      [("agent_name", .null), ("tool", .null),
       ("description", .str "Sentiment Agent - analyzes market sentiment (to be implemented)")]

/-- Outcome of one `invoke_agent` call on a live client: a normal JSON value
or a raised exception carrying its message. -/
inductive InvokeOutcome where
  | ok (resp : JVal)
  | exn (msg : String)

/-- The external world the router runs against: which handle names have a
live client in `AgentRegistry`, and how each live client answers a message.
Both are external collaborators of the core. -/
structure RouterEnv where
  registry : String → Bool
  invoke : String → String → InvokeOutcome

/-- Handle resolution inside `route_to_agent` (primary, then declared
fallback): the handle actually used, or an error marker when neither is in
the registry. `agent_name` keeps the primary name on failure, as in the
source. -/
def resolveHandle (env : RouterEnv) (primary : Option String) (fallback : Option String) :
    Option String :=
  match primary with
  | none => none
  | some p =>
      if env.registry p then some p
      else match fallback with
        | some fb => if env.registry fb then some fb else none
        | none => none

/-- Message construction inside `route_to_agent`. -/
def routeMessage (toolV : Option JVal) (entity : String) (message : Option String) : String :=
  let m := message.getD ""
  if m = "" then
    match toolV with
    | some (.str t) => if t = "" then "Analyze " ++ entity else "Use " ++ t ++ " tool to analyze " ++ entity
    | _ => "Analyze " ++ entity
  else if pyIn (pyLower entity) (pyLower m) then m
  else m ++ " for " ++ entity

/-- The `routing_metadata` dict attached to a successful dict response. -/
def routingMetadata (agent_type : AgentType) (agent_name : String) (ri : JObj) : JVal :=
  .obj [("agent_type", .str agent_type.value),
        ("agent_name", .str agent_name),
        ("tool_used", (jget ri "tool").getD .null),
        ("description", (jget ri "description").getD .null)]

/-- Invocation stage of `route_to_agent`: call the resolved client and
normalize the outcome (attach routing metadata to dict responses, collapse a
raised exception into an error dict). -/
def routeInvoke (env : RouterEnv) (agent_type : AgentType) (agent_name : String) (ri : JObj)
    (entity : String) (message : Option String) : JVal :=
  let msg := routeMessage (jget ri "tool") entity message
  match env.invoke agent_name msg with
  | .exn e =>
      .obj [("error", .str e), ("agent_type", .str agent_type.value),
            ("agent_name", .str agent_name)]
  | .ok resp =>
      match resp with
      | .obj kvs => .obj (jset kvs "routing_metadata" (routingMetadata agent_type agent_name ri))
      | v => v

/-- Error dict for an agent type with no configured handle. The f-string
formatting of the enum member is rendered with its `.value`. -/
def typeUnavailableError (agent_type : AgentType) : JVal :=
  .obj [("error", .str ("Agent type '" ++ agent_type.value ++ "' not available")),
        ("agent_type", .str agent_type.value),
        ("available_types", .arr (allAgentTypes.map (fun t => .str t.value)))]

/-- Error dict when neither the primary handle nor the fallback has a live
client; `routing_info` is the full routing dict (which carries the fallback
name). -/
def handleNotFoundError (agent_type : AgentType) (primary : String) (ri : JObj) : JVal :=
  .obj [("error", .str ("Agent '" ++ primary ++ "' not found in registry")),
        ("agent_type", .str agent_type.value),
        ("routing_info", .obj ri)]

/-- `A2AAgentRouter.route_to_agent`. -/
def route_to_agent (env : RouterEnv) (agent_type : AgentType) (entity : String)
    (message : Option String := none) : JVal :=
  let ri := routing_map agent_type
  match jget ri "agent_name" with
  | some (.str primary) =>
      match resolveHandle env (some primary) (match jget ri "fallback" with
        | some (.str fb) => some fb
        | _ => none) with
      | some agent_name => routeInvoke env agent_type agent_name ri entity message
      | none => handleNotFoundError agent_type primary ri
  | _ => typeUnavailableError agent_type

/-- Python test `isinstance(result, dict) and "error" in result`. -/
def isErrorResult : JVal → Bool
  | .obj kvs => jhasKey kvs "error"
  | _ => false

/-- The value stored under the key `"error"` of an error dict. -/
def errorValue : JVal → JVal
  | .obj kvs => (jget kvs "error").getD .null
  | _ => .null

/-- Response shape of `route_multiple`. -/
structure MultiResponse where
  entity : String
  agent_results : JObj
  errors : JObj
  success_count : Nat
  error_count : Nat

/-- Aggregation loop of `route_multiple` over the gathered per-type results.
`route_to_agent` never raises (every failure mode is collapsed into an error
dict before this point), so the `isinstance(result, Exception)` arm of the
loop is not reachable in the model. -/
def routeMultipleAux (env : RouterEnv) (entity : String) (message : Option String) :
    List AgentType → JObj → JObj → JObj × JObj
  | [], res, errs => (res, errs)
  | t :: ts, res, errs =>
      let r := route_to_agent env t entity message
      if isErrorResult r then
        routeMultipleAux env entity message ts res (jset errs t.value (errorValue r))
      else
        routeMultipleAux env entity message ts (jset res t.value r) errs

/-- `A2AAgentRouter.route_multiple`. -/
def route_multiple (env : RouterEnv) (agent_types : List AgentType) (entity : String)
    (message : Option String := none) : MultiResponse :=
  let (res, errs) := routeMultipleAux env entity message agent_types [] []
  { entity := entity, agent_results := res, errors := errs,
    success_count := res.length, error_count := errs.length }

/-- Keyword sets of `route_by_intent`, in source order. -/
def pricingKeywords : List String := ["price", "pricing", "cost", "price change"]
def launchKeywords : List String := ["launch", "product launch", "new product", "announcement"]
def sentimentKeywords : List String := ["sentiment", "feeling", "opinion", "mood"]
def overviewKeywords : List String := ["overview", "profile", "company info", "about"]
def revenueKeywords : List String := ["revenue", "turnover", "financial", "earnings", "profit"]

/-- Python `any(word in intent_lower for word in kws)`. -/
def containsAny (kws : List String) (intent : String) : Bool :=
  kws.any (fun w => pyIn w (pyLower intent))

/-- Intent classification performed by `route_by_intent` (the agent type the
request is dispatched to). -/
def keyword_route (intent : String) : AgentType :=
  if containsAny pricingKeywords intent then .PRICING_CHANGE
  else if containsAny launchKeywords intent then .PRODUCT_LAUNCH
  else if containsAny sentimentKeywords intent then .SENTIMENT
  else if containsAny overviewKeywords intent then .COMPANY_OVERVIEW
  else if containsAny revenueKeywords intent then .REVENUE_TURNOVER
  else .COMPANY_OVERVIEW

/-- `A2AAgentRouter.route_by_intent`: classify, then route with the intent
text as the message. -/
def route_by_intent (env : RouterEnv) (entity intent : String) : JVal :=
  route_to_agent env (keyword_route intent) entity (some intent)

/-! ## core/orchestrator.py — report section derivation -/

/-- Result of `compute_confidence`. -/
structure Confidence where
  score : ℚ
  reason : String
deriving DecidableEq

/-- Non-emptiness test applied per field in `compute_confidence`: `None` is
skipped; lists and dicts count when non-empty; anything else counts when
`str(v).strip()` is non-empty (always true for numbers and booleans). -/
def fieldNonEmpty : JVal → Bool
  | .null => false
  | .arr xs => !xs.isEmpty
  | .obj kvs => !kvs.isEmpty
  | .str s => pyStrip s != ""
  | .num _ => true
  | .bool _ => true

/-- Numeric-field test `isinstance(v, (int, float))`; Python booleans are
ints, so they count. -/
def fieldNumeric : JVal → Bool
  | .num _ => true
  | .bool _ => true
  | _ => false

/-- `compute_confidence` from core/orchestrator.py. -/
def compute_confidence (data : JVal) : Confidence :=
  match data with
  | .obj kvs =>
      let total_keys := kvs.length
      let non_empty := (kvs.filter (fun p => fieldNonEmpty p.2)).length
      let signals := (kvs.filter (fun p => fieldNumeric p.2)).length
      let base : ℚ := (non_empty : ℚ) / (max 1 total_keys : ℕ)
      let signal_bonus : ℚ := min (3/10 : ℚ) ((signals : ℚ) * (5/100))
      let score : ℚ := max 0 (min 1 ((1/2) * base + signal_bonus))
      let reason_parts :=
        (if 0 < signals then ["numeric data present"] else []) ++
        (if max 1 (total_keys / 2) ≤ non_empty then ["sufficient fields populated"] else [])
      let reason_parts := if reason_parts.isEmpty then ["limited data available"] else reason_parts
      { score := round2 score, reason := String.intercalate ", " reason_parts }
  | .arr xs =>
      let n := xs.length
      { score := round2 (max 0 (min 1 ((3/10 : ℚ) + min (4/10 : ℚ) ((n : ℚ) * (5/100))))),
        reason := "list length indicates available data" }
  | _ => { score := 0, reason := "unable to estimate" }

/-- Python `float(v)` on a JSON scalar, returning `none` where `float` would
raise (dicts, lists, `None`, non-numeric strings). Plain decimal string
literals with optional sign and fraction are parsed; exotic float literals
(exponents, infinities, underscores) are outside the model. -/
def parseDecimalString (s : String) : Option ℚ :=
  let cs := (pyStrip s).data
  let (sign, cs) : ℚ × List Char :=
    match cs with
    | '-' :: t => (-1, t)
    | '+' :: t => (1, t)
    | _ => (1, cs)
  let ds := cs.takeWhile Char.isDigit
  let rest := cs.dropWhile Char.isDigit
  let digitsVal : List Char → ℚ := fun l => ((l.foldl (fun n c => 10 * n + c.toNat - '0'.toNat) 0 : ℕ) : ℚ)
  match rest with
  | [] => if ds.isEmpty then none else some (sign * digitsVal ds)
  | '.' :: fs =>
      if fs.all Char.isDigit ∧ ¬(ds.isEmpty ∧ fs.isEmpty) then
        some (sign * (digitsVal ds + digitsVal fs / (10 ^ fs.length : ℕ)))
      else none
  | _ => none

/-- Python `float(v)` for a JSON value. -/
def pyFloat : JVal → Option ℚ
  | .num q => some q
  | .bool b => some (if b then 1 else 0)
  | .str s => parseDecimalString s
  | _ => none

/-- One tagged entry of the risk classification. -/
structure RiskEntry where
  risk : String
  severity : String
  reason : String
deriving DecidableEq

/-- Python `for x in v` (`none` where iteration raises `TypeError`). Dicts
iterate over their keys, strings over their characters. -/
def pyIterate : JVal → Option (List JVal)
  | .arr xs => some xs
  | .obj kvs => some (kvs.map (fun p => .str p.1))
  | .str s => some (s.data.map (fun c => .str (String.singleton c)))
  | _ => none

/-- Growth-rate extraction in `classify_risk_severity` and
`build_executive_summary`: `fin.get("growth_rate")`, then `float(...)` with
the exception swallowed into `None`. -/
def finGrowthRate (fin : JObj) : Option ℚ :=
  match jget fin "growth_rate" with
  | none => none
  | some g => pyFloat g

/-- The `change_type` directions collected from the pricing input; `none`
models the `AttributeError` raised on a list element that is not a dict. -/
def priceDirections : JVal → Option (List JVal)
  | .arr xs =>
      xs.foldr
        (fun p acc =>
          match acc with
          | none => none
          | some l =>
              match p with
              | .obj kvs =>
                  match jget kvs "change_type" with
                  | some d => if d.truthy then some (d :: l) else some l
                  | none => some l
              | _ => none)
        (some [])
  | .obj kvs =>
      some (match jget kvs "change_type" with
        | some d => if d.truthy then [d] else []
        | none => [])
  | _ => some []

/-- Severity and triggered-rule names for one risk, given the extracted
financial and pricing signals, exactly as the loop body computes them. -/
def riskSeverity (trDeclining trStable : Bool) (grv : Option ℚ) (hasDecrease : Bool) :
    String × List String :=
  let (sev, parts) :=
    if trDeclining || (match grv with | some g => decide (g < 0) | none => false) then
      ("High", ["negative growth indicators"])
    else if trStable || (match grv with | some g => decide (g = 0) | none => false) then
      ("Medium", ["flat growth indicators"])
    else ("Low", ([] : List String))
  if hasDecrease then ("High", parts ++ ["pricing decrease detected"]) else (sev, parts)

/-- `classify_risk_severity` from core/orchestrator.py. The `risks` argument
is iterated as `risks or []`; `none` models an uncaught exception. -/
def classify_risk_severity (risks : JVal) (fin : JObj) (pricing : JVal) :
    Option (List RiskEntry) := do
  let trDeclining := ((jget fin "revenue_trend").getD .null).eqStr "declining"
  let trStable := ((jget fin "revenue_trend").getD .null).eqStr "stable"
  let grv := finGrowthRate fin
  let dirs ← priceDirections pricing
  let hasDecrease := dirs.any (fun d => d.eqStr "decrease")
  let rs ← pyIterate (pyOrElse risks (.arr []))
  pure (rs.map (fun r =>
    let (sev, parts) := riskSeverity trDeclining trStable grv hasDecrease
    let parts := if parts.isEmpty then ["limited signals"] else parts
    { risk := pyStr r, severity := sev, reason := String.intercalate ", " parts }))

/-- `results.get(key, {}).get("agent_output", {})`; `none` models the
`AttributeError` when the per-agent entry is not a dict. -/
def rawAgentOutput (results : JObj) (key : String) : Option JVal :=
  match (jget results key).getD (.obj []) with
  | .obj kvs => some ((jget kvs "agent_output").getD (.obj []))
  | _ => none

/-- View of a JSON value as a dict (`none` models the `AttributeError` of a
subsequent `.get` when it is not one). -/
def asObj : JVal → Option JObj
  | .obj kvs => some kvs
  | _ => none

/-- Default sentiment object of `build_executive_summary`. -/
def sentDefault : JObj :=
  [("sentiment_summary", .str "Neutral sentiment (0.0)."), ("sentiment_score", .num 0),
   ("risks", .arr []), ("opportunities", .arr [])]

/-- Sentiment-object selection of `build_executive_summary` (the extraction
is wrapped in `try/except`, so a malformed entry falls back to the default
instead of raising). -/
def sentObjOf (results : JObj) : JObj :=
  match rawAgentOutput results "sentiment" with
  | none => sentDefault
  | some s =>
      match s with
      | .obj kvs =>
          if jhasKey kvs "sentiment_summary" || jhasKey kvs "sentiment_score" then kvs
          else sentDefault
      | _ => sentDefault

/-- Python comparison `v >= q` / `v < q` of a JSON value against a float
(`none` models the `TypeError` raised for non-numeric values). -/
def numCompareVal : JVal → Option ℚ
  | .num q => some q
  | .bool b => some (if b then 1 else 0)
  | _ => none

/-- The ingredients of the outlook computation in `build_executive_summary`:
growth rate `grv`, the declining-trend test, the raw `sentiment_score` value
(`s_score`), and the count of high-severity classified risks. `none` models
an exception raised during their extraction. -/
def execParts (results : JObj) : Option (Option ℚ × Bool × JVal × Nat) := do
  let ovV ← rawAgentOutput results "company_overview"
  let _ov ← asObj (pyOrElse ovV (.obj []))
  let offPrV ← rawAgentOutput results "pricing_change"
  let off_pr := pyOrElse offPrV (.obj [])
  let offPlV ← rawAgentOutput results "product_launch"
  let _off_pl := pyOrElse offPlV (.obj [])
  let finV ← rawAgentOutput results "revenue_turnover"
  let fin ← asObj (pyOrElse finV (.obj []))
  let sent := sentObjOf results
  let grv := finGrowthRate fin
  let trDeclining := (pyOrElse ((jget fin "revenue_trend").getD .null) (.str "")).eqStr "declining"
  let sScoreV := pyOrElse ((jget sent "sentiment_score").getD .null) (.num 0)
  let risksV := pyOrElse ((jget sent "risks").getD .null) (.arr [])
  let sev ← classify_risk_severity risksV fin off_pr
  let high_ct := (sev.filter (fun e => e.severity == "High")).length
  pure (grv, trDeclining, sScoreV, high_ct)

/-- The two sequential outlook updates of `build_executive_summary`, with
Python short-circuit evaluation: the `s_score` comparisons are only reached
(and can only raise) when the earlier conjuncts/disjuncts do not decide the
condition. -/
def execOutlook (grv : Option ℚ) (trDeclining : Bool) (sScoreV : JVal) (high_ct : Nat) :
    Option String := do
  let pos ←
    match grv with
    | some g =>
        if 0 < g then do
          let s ← numCompareVal sScoreV
          pure (decide ((3/10 : ℚ) ≤ s) && high_ct == 0 && !trDeclining)
        else pure false
    | none => pure false
  let neg ←
    if (match grv with | some g => decide (g < 0) | none => false) then pure true
    else if trDeclining then pure true
    else do
      let s ← numCompareVal sScoreV
      if decide (s < (2/10 : ℚ)) then pure true else pure (decide (0 < high_ct))
  pure (if neg then "Negative" else if pos then "Positive" else "Neutral")

/-- The `overall_outlook` field computed by `build_executive_summary`
(`none` models an exception escaping the function). -/
def build_executive_summary_outlook (results : JObj) : Option String := do
  let (grv, trDeclining, sScoreV, high_ct) ← execParts results
  execOutlook grv trDeclining sScoreV high_ct

/-! ## core/storage.py — ContextStorage (cached_facts table)

Timestamps are integers in hours. A row is live at time `now` when
`expires_at IS NULL OR expires_at > now` (ISO strings compare
chronologically). -/

/-- One row of the `cached_facts` table (UNIQUE(entity, fact_type)). -/
structure FactRow where
  entity : String
  fact_type : String
  fact_data : JVal
  confidence_score : ℚ
  source : Option String
  created_at : ℤ
  updated_at : ℤ
  expires_at : Option ℤ

abbrev FactTable := List FactRow

/-- SQL filter `expires_at IS NULL OR expires_at > now`. -/
def notExpired (now : ℤ) : Option ℤ → Bool
  | none => true
  | some x => decide (now < x)

/-- Expiry timestamp computed at store time: Python `if expires_in_hours:`
treats both `None` and `0` as no expiry. -/
def expiryAt (now : ℤ) : Option ℤ → Option ℤ
  | some h => if h ≠ 0 then some (now + h) else none
  | none => none

/-- `ContextStorage.store_fact` (INSERT OR REPLACE keyed on
`(entity, fact_type)`). -/
def store_fact (tbl : FactTable) (now : ℤ) (entity fact_type : String) (fact_data : JVal)
    (confidence_score : ℚ := 0) (source : Option String := none)
    (expires_in_hours : Option ℤ := none) : FactTable :=
  tbl.filter (fun r => !(r.entity == entity && r.fact_type == fact_type)) ++
    [{ entity := entity, fact_type := fact_type, fact_data := fact_data,
       confidence_score := confidence_score, source := source,
       created_at := now, updated_at := now,
       expires_at := expiryAt now expires_in_hours }]

/-- Columns returned by `ContextStorage.get_fact`. -/
structure FactView where
  data : JVal
  confidence_score : ℚ
  source : Option String
  expires_at : Option ℤ

def FactRow.toView (r : FactRow) : FactView :=
  { data := r.fact_data, confidence_score := r.confidence_score,
    source := r.source, expires_at := r.expires_at }

/-- `ContextStorage.get_fact`: the unique live row for the key, if any. -/
def get_fact (tbl : FactTable) (now : ℤ) (entity fact_type : String) : Option FactView :=
  ((tbl.filter (fun r =>
      r.entity == entity && r.fact_type == fact_type && notExpired now r.expires_at)).head?).map
    FactRow.toView

/-- Columns returned by `ContextStorage.get_all_facts`. -/
structure AllFactView where
  fact_type : String
  data : JVal
  confidence_score : ℚ
  source : Option String

def FactRow.toAllView (r : FactRow) : AllFactView :=
  { fact_type := r.fact_type, data := r.fact_data,
    confidence_score := r.confidence_score, source := r.source }

/-- `ContextStorage.get_all_facts`: live rows of the entity, most recently
updated first. -/
def get_all_facts (tbl : FactTable) (now : ℤ) (entity : String) : List AllFactView :=
  (sortBy (fun a b => decide (b.updated_at ≤ a.updated_at))
      (tbl.filter (fun r => r.entity == entity && notExpired now r.expires_at))).map
    FactRow.toAllView

/-! ## core/managed_storage.py — ManagedStorage

The hash library (`hashlib.sha256` / `hashlib.md5`) is an external
collaborator and enters the model as a pair of functions on strings. -/

/-- External hash functions (hex digests). -/
structure HashFns where
  sha256hex : String → String
  md5hex : String → String

/-- Comparison on dict keys used by `json.dumps(..., sort_keys=True)`. -/
def keyLe (a b : String × JVal) : Bool := decide (a.1 ≤ b.1)

/-- `json.dumps(data, sort_keys=True)`: canonical JSON text with the keys of
every object sorted. String escaping and shortest-repr float formatting are
abstracted; the rendering is a function of the value, which is all the
content-addressing below relies on. -/
def sortedJson : JVal → String
  | .null => "null"
  | .bool b => if b then "true" else "false"
  | .num q => if q.den = 1 then toString q.num else toString q
  | .str s => "\"" ++ s ++ "\""
  | .arr xs => "[" ++ String.intercalate ", " (xs.attach.map fun ⟨v, _⟩ => sortedJson v) ++ "]"
  | .obj kvs =>
      "\x7b" ++ String.intercalate ", "
        ((sortBy keyLe kvs).attach.map fun ⟨p, _⟩ => "\"" ++ p.1 ++ "\": " ++ sortedJson p.2) ++ "\x7d"
decreasing_by
  · simp_wf
    have := List.sizeOf_lt_of_mem ‹v ∈ xs›
    omega
  · simp_wf
    have hm : p ∈ sortBy keyLe kvs := ‹_›
    rw [mem_sortBy] at hm
    have := List.sizeOf_lt_of_mem hm
    cases p
    simp at this ⊢
    omega

/-- `ManagedStorage._hash_data`. -/
def hash_data (H : HashFns) (data : JObj) : String := H.md5hex (sortedJson (.obj data))

/-- `ManagedStorage._generate_storage_key`. -/
def generate_storage_key (H : HashFns) (entity agent_type data_hash : String) : String :=
  strTake (H.sha256hex (entity ++ ":" ++ agent_type ++ ":" ++ data_hash)) 16

/-- The `StorageType` enumeration. -/
inductive StorageType where
  | FACT
  | SIGNAL
  | OUTPUT
  | SCHEMA
deriving DecidableEq

def StorageType.value : StorageType → String
  | .FACT => "fact"
  | .SIGNAL => "signal"
  | .OUTPUT => "output"
  | .SCHEMA => "schema"

/-- One row of the `managed_storage` table (UNIQUE storage_key). The
serialized `metadata` column repeats the other columns and is not read by
any claim, so it is not carried separately. -/
structure MRow where
  storage_key : String
  entity : String
  agent_type : String
  storage_type : String
  data : JVal
  schema_version : String
  confidence_score : ℚ
  created_at : ℤ
  expires_at : Option ℤ

/-- One row of the `storage_index` table. -/
structure IndexRow where
  storage_key : String
  index_key : String
  index_value : String

/-- Database state of `ManagedStorage` (the `analysis_jobs` table is
modelled separately below). -/
structure MState where
  rows : List MRow
  index : List IndexRow

/-- `ManagedStorage.store`: content-addressed INSERT OR REPLACE plus
re-written index rows for the caller-supplied fields. -/
def mstore (H : HashFns) (s : MState) (now : ℤ) (entity agent_type : String) (data : JObj)
    (storage_type : StorageType := .OUTPUT) (schema_version : Option String := none)
    (confidence_score : ℚ := 0) (expires_in_hours : Option ℤ := none)
    (index_fields : List String := []) : String × MState :=
  let data_hash := hash_data H data
  let storage_key := generate_storage_key H entity agent_type data_hash
  let row : MRow :=
    { storage_key := storage_key, entity := entity, agent_type := agent_type,
      storage_type := storage_type.value, data := .obj data,
      schema_version := schema_version.getD "1.0",
      confidence_score := confidence_score, created_at := now,
      expires_at := expiryAt now expires_in_hours }
  let rows := s.rows.filter (fun r => r.storage_key != storage_key) ++ [row]
  let index :=
    if index_fields.isEmpty then s.index
    else
      s.index.filter (fun ir => ir.storage_key != storage_key) ++
        index_fields.filterMap (fun f =>
          (jget data f).map (fun v =>
            { storage_key := storage_key, index_key := f, index_value := pyStr v }))
  (storage_key, { rows := rows, index := index })

/-- Python truthiness of an optional string filter argument (`if entity:`). -/
def strFilter (p : Option String) (v : String) : Bool :=
  match p with
  | none => true
  | some e => if e = "" then true else v == e

/-- Row filter of `ManagedStorage.retrieve`. -/
def mretrieveFilter (now : ℤ) (entity agent_type : Option String)
    (storage_type : Option StorageType) (min_confidence : ℚ) (include_expired : Bool)
    (r : MRow) : Bool :=
  strFilter entity r.entity && strFilter agent_type r.agent_type &&
    (match storage_type with | some st => r.storage_type == st.value | none => true) &&
    decide (min_confidence ≤ r.confidence_score) &&
    (include_expired || notExpired now r.expires_at)

/-- Columns returned by `ManagedStorage.retrieve`. -/
structure MItemView where
  storage_key : String
  entity : String
  agent_type : String
  storage_type : String
  data : JVal
  created_at : ℤ

def MRow.toView (r : MRow) : MItemView :=
  { storage_key := r.storage_key, entity := r.entity, agent_type := r.agent_type,
    storage_type := r.storage_type, data := r.data, created_at := r.created_at }

/-- `ManagedStorage.retrieve`: conjunctive filter, newest first, LIMIT. -/
def mretrieve (s : MState) (now : ℤ) (entity : Option String := none)
    (agent_type : Option String := none) (storage_type : Option StorageType := none)
    (limit : Nat := 10) (min_confidence : ℚ := 0) (include_expired : Bool := false) :
    List MItemView :=
  ((sortBy (fun a b => decide (b.created_at ≤ a.created_at))
      (s.rows.filter (mretrieveFilter now entity agent_type storage_type
        min_confidence include_expired))).take limit).map MRow.toView

/-! ## Analysis job ledger and section endpoints (core/orchestrator.py) -/

/-- One row of the `analysis_jobs` table. -/
structure Job where
  entity : String
  status : String
  result : Option JVal
  created_at : ℤ
  updated_at : ℤ

/-- The `analysis_jobs` table, keyed by job id. -/
structure JobStore where
  jobs : List (String × Job)

/-- `ManagedStorage.get_job`. -/
def get_job (s : JobStore) (job_id : String) : Option Job :=
  (s.jobs.find? (fun p => p.1 == job_id)).map (·.2)

/-- `ManagedStorage.create_job` (plain INSERT; ids are fresh uuid4 values). -/
def create_job (s : JobStore) (job_id entity : String) (now : ℤ) (status : String := "queued") :
    JobStore :=
  let j : Job :=
    { entity := entity, status := status, result := none,
      created_at := now, updated_at := now }
  { jobs := s.jobs ++ [(job_id, j)] }

/-- `ManagedStorage.update_job`: `if result:` — a missing or falsy result
leaves the stored result untouched (status-only update). -/
def update_job (s : JobStore) (job_id : String) (status : String) (result : Option JVal)
    (now : ℤ) : JobStore :=
  { jobs := s.jobs.map (fun p =>
      if p.1 == job_id then
        (p.1,
          { p.2 with
              status := status, updated_at := now,
              result := if (match result with | some r => r.truthy | none => false)
                then result else p.2.result })
      else p) }

/-- Possible responses of a report-section endpoint. -/
inductive SectionResponse where
  | notFound
  | notComplete
  | ok (payload : JVal)

/-- Python truthiness of `job.get("result")`. -/
def resultTruthy : Option JVal → Bool
  | none => false
  | some v => v.truthy

/-- Gate shared by the overview / offerings / market-signals / sentiment
endpoints: 404 when the job or a truthy result is absent, otherwise the
section body runs (it never inspects the status). `body` stands for the
section-building code; `none` models an exception escaping it. -/
def sectionNoStatusCheck (s : JobStore) (job_id : String) (body : Job → Option JVal) :
    Option SectionResponse :=
  match get_job s job_id with
  | none => some .notFound
  | some j =>
      if !resultTruthy j.result then some .notFound
      else (body j).map .ok

/-- Gate shared by the executive-summary / risks / follow-ups endpoints:
404 when the job or a truthy result is absent, then 409 when the status is
not `completed`, otherwise the section body runs. -/
def sectionWithStatusCheck (s : JobStore) (job_id : String) (body : Job → Option JVal) :
    Option SectionResponse :=
  match get_job s job_id with
  | none => some .notFound
  | some j =>
      if !resultTruthy j.result then some .notFound
      else if j.status != "completed" then some .notComplete
      else (body j).map .ok

/-- The alerts endpoint: same gate as the status-checking endpoints, but the
body may also update the job row (it persists a generated alerts section);
the body stands for lines 923-993, whose outcome depends on the external
agent service. -/
def alertsEndpoint (s : JobStore) (job_id : String)
    (body : Job → JobStore → Option (SectionResponse × JobStore)) :
    Option (SectionResponse × JobStore) :=
  match get_job s job_id with
  | none => some (.notFound, s)
  | some j =>
      if !resultTruthy j.result then some (.notFound, s)
      else if j.status != "completed" then some (.notComplete, s)
      else body j s

/-- Job stores reachable through the program: jobs are created `queued` with
no result by `create_analysis_job`, and the only updates are the ones
`run_analysis_job` and the alerts endpoint perform — marking a freshly
created (still queued) job `analyzing` with no result argument, and storing
a result together with a `completed` or `failed` status. -/
inductive JReach : JobStore → Prop
  | init : JReach ⟨[]⟩
  | create (s : JobStore) (job_id entity : String) (now : ℤ) :
      JReach s → get_job s job_id = none → JReach (create_job s job_id entity now)
  | markAnalyzing (s : JobStore) (job_id : String) (now : ℤ) :
      JReach s → (∀ j, get_job s job_id = some j → j.status = "queued") →
      JReach (update_job s job_id "analyzing" none now)
  | complete (s : JobStore) (job_id : String) (r : JVal) (now : ℤ) :
      JReach s → JReach (update_job s job_id "completed" (some r) now)
  | fail (s : JobStore) (job_id : String) (r : JVal) (now : ℤ) :
      JReach s → JReach (update_job s job_id "failed" (some r) now)

/-! ## Theorems -/

/-- Membership of a JSON object field, as a function of the object. -/
def jfield (v : JVal) (k : String) : Option JVal :=
  match v with
  | .obj kvs => jget kvs k
  | _ => none

theorem containsAny_of_pyLower_eq (kws : List String) {s t : String}
    (h : pyLower s = pyLower t) : containsAny kws s = containsAny kws t := by
  simp [containsAny, h]

/-- C2 (confirmed). `route_by_intent` classifies by case-insensitive
first-match-wins substring search over the fixed keyword sets, in the order
pricing, launch, sentiment, overview, revenue; a pricing keyword wins even
when a launch keyword is also present (as in "check pricing for launch"),
and text matching no keyword set defaults to `company_overview`. The
classified type is dispatched through `route_to_agent` with the intent text
as the message. -/
theorem route_by_intent_priority :
    (∀ intent, containsAny pricingKeywords intent = true →
        keyword_route intent = .PRICING_CHANGE)
  ∧ (∀ intent, containsAny pricingKeywords intent = false →
        containsAny launchKeywords intent = true →
        keyword_route intent = .PRODUCT_LAUNCH)
  ∧ (∀ intent, containsAny pricingKeywords intent = false →
        containsAny launchKeywords intent = false →
        containsAny sentimentKeywords intent = true →
        keyword_route intent = .SENTIMENT)
  ∧ (∀ intent, containsAny pricingKeywords intent = false →
        containsAny launchKeywords intent = false →
        containsAny sentimentKeywords intent = false →
        containsAny overviewKeywords intent = true →
        keyword_route intent = .COMPANY_OVERVIEW)
  ∧ (∀ intent, containsAny pricingKeywords intent = false →
        containsAny launchKeywords intent = false →
        containsAny sentimentKeywords intent = false →
        containsAny overviewKeywords intent = false →
        containsAny revenueKeywords intent = true →
        keyword_route intent = .REVENUE_TURNOVER)
  ∧ (∀ intent, containsAny pricingKeywords intent = false →
        containsAny launchKeywords intent = false →
        containsAny sentimentKeywords intent = false →
        containsAny overviewKeywords intent = false →
        containsAny revenueKeywords intent = false →
        keyword_route intent = .COMPANY_OVERVIEW)
  ∧ keyword_route "check pricing for launch" = .PRICING_CHANGE
  ∧ containsAny launchKeywords "check pricing for launch" = true
  ∧ (∀ s t, pyLower s = pyLower t → keyword_route s = keyword_route t)
  ∧ (∀ env entity intent, route_by_intent env entity intent =
        route_to_agent env (keyword_route intent) entity (some intent)) := by
  refine ⟨?_, ?_, ?_, ?_, ?_, ?_, by decide, by decide, ?_, fun _ _ _ => rfl⟩
  · intro intent h
    simp [keyword_route, h]
  · intro intent h1 h2
    simp [keyword_route, h1, h2]
  · intro intent h1 h2 h3
    simp [keyword_route, h1, h2, h3]
  · intro intent h1 h2 h3 h4
    simp [keyword_route, h1, h2, h3, h4]
  · intro intent h1 h2 h3 h4 h5
    simp [keyword_route, h1, h2, h3, h4, h5]
  · intro intent h1 h2 h3 h4 h5
    simp [keyword_route, h1, h2, h3, h4, h5]
  · intro s t h
    simp only [keyword_route, containsAny_of_pyLower_eq pricingKeywords h,
      containsAny_of_pyLower_eq launchKeywords h,
      containsAny_of_pyLower_eq sentimentKeywords h,
      containsAny_of_pyLower_eq overviewKeywords h,
      containsAny_of_pyLower_eq revenueKeywords h]

/-- Witness for C2 at the concrete intent of the claim. -/
theorem route_by_intent_priority_witness :
    containsAny pricingKeywords "check pricing for launch" = true ∧
    keyword_route "check pricing for launch" = AgentType.PRICING_CHANGE :=
  ⟨by decide, route_by_intent_priority.1 "check pricing for launch" (by decide)⟩

/-- C9 (confirmed). When the primary handle of an agent type has no live
client, the declared fallback is attempted; only `product_launch` declares
one (`agent_pl` behind `agent_sc`). When the fallback is also unavailable
(or none is declared) the call returns an error dict whose message names
the primary handle and whose `routing_info` payload carries both the
primary (`agent_name`) and the declared fallback. -/
theorem route_to_agent_fallback :
    (∀ t : AgentType, t ≠ .PRODUCT_LAUNCH → jget (routing_map t) "fallback" = none)
  ∧ jget (routing_map .PRODUCT_LAUNCH) "agent_name" = some (.str "agent_sc")
  ∧ jget (routing_map .PRODUCT_LAUNCH) "fallback" = some (.str "agent_pl")
  ∧ (∀ env : RouterEnv, ∀ entity msg,
      env.registry "agent_sc" = false → env.registry "agent_pl" = true →
      route_to_agent env .PRODUCT_LAUNCH entity msg =
        routeInvoke env .PRODUCT_LAUNCH "agent_pl" (routing_map .PRODUCT_LAUNCH) entity msg)
  ∧ (∀ env : RouterEnv, ∀ entity msg,
      env.registry "agent_sc" = false → env.registry "agent_pl" = false →
      route_to_agent env .PRODUCT_LAUNCH entity msg =
        handleNotFoundError .PRODUCT_LAUNCH "agent_sc" (routing_map .PRODUCT_LAUNCH)
      ∧ errorValue (handleNotFoundError .PRODUCT_LAUNCH "agent_sc" (routing_map .PRODUCT_LAUNCH)) =
          .str "Agent 'agent_sc' not found in registry"
      ∧ jfield (handleNotFoundError .PRODUCT_LAUNCH "agent_sc" (routing_map .PRODUCT_LAUNCH))
          "routing_info" = some (.obj (routing_map .PRODUCT_LAUNCH)))
  ∧ (∀ env : RouterEnv, ∀ t entity msg primary,
      jget (routing_map t) "agent_name" = some (.str primary) →
      jget (routing_map t) "fallback" = none →
      env.registry primary = false →
      route_to_agent env t entity msg = handleNotFoundError t primary (routing_map t)
      ∧ errorValue (handleNotFoundError t primary (routing_map t)) =
          .str ("Agent '" ++ primary ++ "' not found in registry")) := by
  refine ⟨?_, rfl, rfl, ?_, ?_, ?_⟩
  · intro t h
    cases t
    case PRODUCT_LAUNCH => exact absurd rfl h
    all_goals rfl
  · intro env entity msg h1 h2
    simp [route_to_agent, routing_map, jget, resolveHandle, h1, h2]
  · intro env entity msg h1 h2
    refine ⟨?_, rfl, rfl⟩
    simp [route_to_agent, routing_map, jget, resolveHandle, h1, h2]
  · intro env t entity msg primary hname hfb hreg
    constructor
    · cases t <;>
        simp_all [route_to_agent, routing_map, jget, resolveHandle]
    · rfl

/-- Witness for C9: a registry with no live clients at all. -/
theorem route_to_agent_fallback_witness :
    let env : RouterEnv := { registry := fun _ => false, invoke := fun _ _ => .exn "down" }
    env.registry "agent_sc" = false ∧ env.registry "agent_pl" = false ∧
    route_to_agent env .PRODUCT_LAUNCH "Acme" none =
      handleNotFoundError .PRODUCT_LAUNCH "agent_sc" (routing_map .PRODUCT_LAUNCH) :=
  ⟨rfl, rfl,
    (route_to_agent_fallback.2.2.2.2.1 _ "Acme" none rfl rfl).1⟩

theorem jhasKey_append (d e : JObj) (s : String) :
    jhasKey (d ++ e) s = (jhasKey d s || jhasKey e s) := by
  simp [jhasKey, List.any_append]

theorem jhasKey_jset (d : JObj) (k : String) (v : JVal) (s : String) :
    jhasKey (jset d k v) s = (jhasKey d s || k == s) := by
  unfold jset
  split
  · rename_i hk
    have hmap : (d.map (fun p => if p.1 == k then (k, v) else p)).any (fun p => p.1 == s) =
        d.any (fun p => p.1 == s) := by
      rw [List.any_map]
      congr 1
      funext p
      by_cases h : p.1 == k
      · have hp : p.1 = k := by simpa using h
        simp [Function.comp, h, hp]
      · simp [Function.comp, h]
    show (d.map _).any _ = _
    rw [hmap]
    by_cases hks : k == s
    · have hk' : k = s := by simpa using hks
      subst hk'
      simp [jhasKey] at hk ⊢
      simp [hk]
    · simp [jhasKey, hks]
  · simp [jhasKey, List.any_append]

theorem jset_fresh (d : JObj) (k : String) (v : JVal) (h : jhasKey d k = false) :
    jset d k v = d ++ [(k, v)] := by
  unfold jset
  rw [if_neg]
  simp [h]

/-- Key membership in the two accumulated maps of `route_multiple`. -/
theorem routeMultipleAux_hasKey (env : RouterEnv) (entity : String) (msg : Option String)
    (ts : List AgentType) (res errs : JObj) (s : String) :
    (jhasKey (routeMultipleAux env entity msg ts res errs).1 s =
      (jhasKey res s ||
        ts.any (fun t => t.value == s && !isErrorResult (route_to_agent env t entity msg))))
  ∧ (jhasKey (routeMultipleAux env entity msg ts res errs).2 s =
      (jhasKey errs s ||
        ts.any (fun t => t.value == s && isErrorResult (route_to_agent env t entity msg)))) := by
  induction ts generalizing res errs with
  | nil => simp [routeMultipleAux]
  | cons t ts ih =>
    simp only [routeMultipleAux]
    by_cases he : isErrorResult (route_to_agent env t entity msg)
    · rw [if_pos he]
      constructor
      · rw [(ih res _).1]
        simp [he]
      · rw [(ih res _).2, jhasKey_jset]
        simp [he]
        by_cases hv : t.value == s <;> simp [hv]
    · rw [if_neg he]
      constructor
      · rw [(ih _ errs).1, jhasKey_jset]
        simp [he]
        by_cases hv : t.value == s <;> simp [hv]
      · rw [(ih _ errs).2]
        simp [he]

/-- With key-fresh accumulators and distinct values, the aggregation loop
appends one entry per type to exactly one of the two maps. -/
theorem routeMultipleAux_spec (env : RouterEnv) (entity : String) (msg : Option String)
    (ts : List AgentType) (res errs : JObj)
    (hres : ∀ t ∈ ts, jhasKey res t.value = false)
    (herrs : ∀ t ∈ ts, jhasKey errs t.value = false)
    (hnd : (ts.map AgentType.value).Nodup) :
    routeMultipleAux env entity msg ts res errs =
      (res ++ (ts.filter (fun t => !isErrorResult (route_to_agent env t entity msg))).map
          (fun t => (t.value, route_to_agent env t entity msg)),
       errs ++ (ts.filter (fun t => isErrorResult (route_to_agent env t entity msg))).map
          (fun t => (t.value, errorValue (route_to_agent env t entity msg)))) := by
  induction ts generalizing res errs with
  | nil => simp [routeMultipleAux]
  | cons t ts ih =>
    simp only [List.map_cons, List.nodup_cons] at hnd
    have hndts := hnd.2
    have hfreshsnd : ∀ (w : JVal) (t' : AgentType), t' ∈ ts → ∀ acc : JObj,
        jhasKey acc t'.value = false →
        jhasKey (acc ++ [(t.value, w)]) t'.value = false := by
      intro w t' ht' acc hacc
      rw [jhasKey_append, hacc, Bool.false_or]
      have hne : t.value ≠ t'.value := fun h =>
        hnd.1 (List.mem_map.mpr ⟨t', ht', h.symm⟩)
      simp [jhasKey, hne]
    simp only [routeMultipleAux]
    by_cases he : isErrorResult (route_to_agent env t entity msg)
    · rw [if_pos he]
      rw [jset_fresh _ _ _ (herrs t (by simp))]
      rw [ih res (errs ++ [(t.value, errorValue (route_to_agent env t entity msg))])
        (fun t' ht' => hres t' (by simp [ht']))
        (fun t' ht' => hfreshsnd _ t' ht' errs (herrs t' (by simp [ht'])))
        hndts]
      simp [he, List.filter_cons, List.append_assoc]
    · rw [if_neg he]
      rw [jset_fresh _ _ _ (hres t (by simp))]
      rw [ih (res ++ [(t.value, route_to_agent env t entity msg)]) errs
        (fun t' ht' => hfreshsnd _ t' ht' res (hres t' (by simp [ht'])))
        (fun t' ht' => herrs t' (by simp [ht']))
        hndts]
      simp [he, List.filter_cons, List.append_assoc]

/-- A single satisfier in a duplicate-free list is the whole filter. -/
theorem filter_single {α : Type} (l : List α) (p : α → Bool) (k : α)
    (hnd : l.Nodup) (hk : k ∈ l) (hpk : p k = true)
    (hothers : ∀ t ∈ l, t ≠ k → p t = false) :
    l.filter p = [k] := by
  induction l with
  | nil => cases hk
  | cons a l ih =>
    rw [List.nodup_cons] at hnd
    by_cases hak : a = k
    · subst hak
      have hnil : l.filter p = [] := by
        apply List.filter_eq_nil_iff.mpr
        intro t ht
        have hta : t ≠ a := fun h => hnd.1 (h ▸ ht)
        simp [hothers t (List.mem_cons_of_mem _ ht) hta]
      simp [List.filter_cons, hpk, hnil]
    · have hkl : k ∈ l := by
        rcases List.mem_cons.mp hk with h | h
        · exact absurd h.symm hak
        · exact h
      have hpa : p a = false := hothers a (List.mem_cons_self _ _) hak
      simp [List.filter_cons, hpa,
        ih hnd.2 hkl (fun t ht ht' => hothers t (List.mem_cons_of_mem _ ht) ht')]

/-- C1 (confirmed). Fan-out isolation of `route_multiple`: every requested
agent type ends up keyed in exactly one of the `agent_results` and `errors`
maps (a raised exception or an error-keyed dict from `route_to_agent`
counts as an error), and when exactly one requested type `k` fails while
its distinct siblings succeed, the response holds the `N-1` successes in
`agent_results` and a single entry in `errors` keyed by `k.value`, with
`success_count` and `error_count` equal to those sizes. -/
theorem route_multiple_fanout_isolation (env : RouterEnv) (entity : String)
    (msg : Option String) (types : List AgentType) :
    (∀ t ∈ types,
      (jhasKey (route_multiple env types entity msg).agent_results t.value = true ∧
        jhasKey (route_multiple env types entity msg).errors t.value = false)
      ∨ (jhasKey (route_multiple env types entity msg).agent_results t.value = false ∧
        jhasKey (route_multiple env types entity msg).errors t.value = true))
  ∧ (types.Nodup →
      ∀ k ∈ types, isErrorResult (route_to_agent env k entity msg) = true →
      (∀ t ∈ types, t ≠ k → isErrorResult (route_to_agent env t entity msg) = false) →
      (route_multiple env types entity msg).agent_results.length = types.length - 1
      ∧ (route_multiple env types entity msg).errors =
          [(k.value, errorValue (route_to_agent env k entity msg))]
      ∧ (route_multiple env types entity msg).success_count = types.length - 1
      ∧ (route_multiple env types entity msg).error_count = 1) := by
  constructor
  · intro t ht
    have hk := routeMultipleAux_hasKey env entity msg types [] [] t.value
    have hany : ∀ f : AgentType → Bool,
        (types.any (fun t' => t'.value == t.value && f t')) = f t := by
      intro f
      apply Bool.eq_iff_iff.mpr
      constructor
      · intro h
        rcases List.any_eq_true.mp h with ⟨t', _, ht'⟩
        simp only [Bool.and_eq_true] at ht'
        rcases ht' with ⟨hv, hrest⟩
        have : t' = t := AgentType.value_injective _ _ (by simpa using hv)
        subst this
        exact hrest
      · intro h
        exact List.any_eq_true.mpr ⟨t, ht, by simp [h]⟩
    have h1 := hk.1
    have h2 := hk.2
    rw [hany (fun t' => !isErrorResult (route_to_agent env t' entity msg))] at h1
    rw [hany (fun t' => isErrorResult (route_to_agent env t' entity msg))] at h2
    by_cases he : isErrorResult (route_to_agent env t entity msg)
    · right
      constructor
      · simpa [route_multiple, jhasKey, he] using h1
      · simpa [route_multiple, jhasKey, he] using h2
    · left
      constructor
      · simpa [route_multiple, jhasKey, he] using h1
      · simpa [route_multiple, jhasKey, he] using h2
  · intro hnd k hk hke hothers
    have hndv : (types.map AgentType.value).Nodup :=
      hnd.map (fun a b h => AgentType.value_injective a b h)
    have hspec := routeMultipleAux_spec env entity msg types [] []
      (fun _ _ => rfl) (fun _ _ => rfl) hndv
    have herrfilter : types.filter (fun t => isErrorResult (route_to_agent env t entity msg)) = [k] :=
      filter_single types _ k hnd hk hke hothers
    have hlen : (types.filter (fun t => !isErrorResult (route_to_agent env t entity msg))).length =
        types.length - 1 := by
      have hsum := List.length_eq_length_filter_add
        (l := types) (fun t => isErrorResult (route_to_agent env t entity msg))
      rw [herrfilter] at hsum
      simp only [List.length_cons, List.length_nil] at hsum
      omega
    have hres : (route_multiple env types entity msg).agent_results =
        (types.filter (fun t => !isErrorResult (route_to_agent env t entity msg))).map
          (fun t => (t.value, route_to_agent env t entity msg)) := by
      simp [route_multiple, hspec]
    have herrs : (route_multiple env types entity msg).errors =
        [(k.value, errorValue (route_to_agent env k entity msg))] := by
      simp [route_multiple, hspec, herrfilter]
    refine ⟨by simp [hres, hlen], herrs, ?_, ?_⟩
    · show ((routeMultipleAux env entity msg types [] []).1).length = _
      have : (routeMultipleAux env entity msg types [] []).1 =
          (route_multiple env types entity msg).agent_results := rfl
      rw [this, hres]
      simp [hlen]
    · show ((routeMultipleAux env entity msg types [] []).2).length = _
      have : (routeMultipleAux env entity msg types [] []).2 =
          (route_multiple env types entity msg).errors := rfl
      rw [this, herrs]
      rfl

/-- Witness for C1: four distinct types, the unmapped `sentiment` type as
the single failing member, the other three with live registry clients. -/
theorem route_multiple_fanout_isolation_witness :
    let env : RouterEnv := { registry := fun _ => true, invoke := fun _ _ => .ok (.obj [("x", .str "y")]) }
    let types : List AgentType := [.COMPANY_OVERVIEW, .REVENUE_TURNOVER, .PRICING_CHANGE, .SENTIMENT]
    types.Nodup ∧
    (route_multiple env types "Acme" none).success_count = 3 ∧
    (route_multiple env types "Acme" none).error_count = 1 := by
  intro env types
  have hnd : types.Nodup := by decide
  have hke : isErrorResult (route_to_agent env .SENTIMENT "Acme" none) = true := by decide
  have hothers : ∀ t ∈ types, t ≠ .SENTIMENT →
      isErrorResult (route_to_agent env t "Acme" none) = false := by decide
  have h := (route_multiple_fanout_isolation env "Acme" none types).2 hnd
    .SENTIMENT (by decide) hke hothers
  exact ⟨hnd, h.2.2.1, h.2.2.2⟩

theorem roundHalfEven_bounds (q : ℚ) (a b : ℤ) (h0 : (a : ℚ) ≤ q) (h1 : q ≤ (b : ℚ)) :
    a ≤ roundHalfEven q ∧ roundHalfEven q ≤ b := by
  have hfa : a ≤ ⌊q⌋ := Int.le_floor.mpr h0
  have hfb : ⌊q⌋ ≤ b := by
    have := Int.floor_le_floor h1
    simpa using this
  have hnext : ¬((1:ℚ)/2 ≤ q - ⌊q⌋) ∨ ⌊q⌋ + 1 ≤ b := by
    by_cases hq : ⌊q⌋ = b
    · left
      intro hr
      have hfl : (⌊q⌋ : ℚ) ≤ q := Int.floor_le q
      have : (b : ℚ) + 1/2 ≤ q := by
        rw [← hq]
        linarith
      linarith
    · right
      omega
  unfold roundHalfEven
  split_ifs with hr1 hr2 hf
  · exact ⟨hfa, hfb⟩
  · rcases hnext with hn | hn
    · exact absurd (by linarith) hn
    · exact ⟨by omega, hn⟩
  · exact ⟨hfa, hfb⟩
  · rcases hnext with hn | hn
    · exact absurd (by linarith) hn
    · exact ⟨by omega, hn⟩

theorem round2_bounds (q : ℚ) (h0 : 0 ≤ q) (h1 : q ≤ 1) :
    0 ≤ round2 q ∧ round2 q ≤ 1 := by
  have hb := roundHalfEven_bounds (100 * q) 0 100 (by push_cast; linarith) (by push_cast; linarith)
  unfold round2
  constructor
  · have : (0 : ℚ) ≤ (roundHalfEven (100 * q) : ℚ) := by exact_mod_cast hb.1
    positivity
  · rw [div_le_one (by norm_num)]
    exact_mod_cast hb.2

theorem round2_eq_self (q : ℚ) (n : ℤ) (h : 100 * q = (n : ℚ)) : round2 q = q := by
  unfold round2
  rw [h]
  have hfl : ⌊(n : ℚ)⌋ = n := Int.floor_intCast n
  unfold roundHalfEven
  rw [hfl]
  rw [if_pos (by simp)]
  field_simp
  linarith

/-- The unrounded object-score formula of the claim:
`0.5 * (nonEmpty / total) + min(0.3, numeric * 0.05)`, clamped to [0, 1]. -/
def claimObjectScore (nonEmpty total numeric : ℕ) : ℚ :=
  max 0 (min 1 ((1/2 : ℚ) * ((nonEmpty : ℚ) / (total : ℚ)) +
    min (3/10 : ℚ) ((numeric : ℚ) * (5/100))))

/-- Inputs handled by the two non-default branches of `compute_confidence`. -/
def isObjOrArr : JVal → Bool
  | .obj _ => true
  | .arr _ => true
  | _ => false

/-- Counterexample to C5 as stated: on the object
`{"a": 1, "b": "", "c": ""}` (one non-empty field of three, one numeric
field) the returned score is `round(13/60, 2) = 0.22`, not the value
`13/60` of the claimed formula — the code rounds the score to two decimal
places before returning it. -/
theorem compute_confidence_formula_counterexample :
    (([("a", JVal.num 1), ("b", JVal.str ""), ("c", JVal.str "")] : JObj).filter
        (fun p => fieldNonEmpty p.2)).length = 1
  ∧ (([("a", JVal.num 1), ("b", JVal.str ""), ("c", JVal.str "")] : JObj).filter
        (fun p => fieldNumeric p.2)).length = 1
  ∧ ([("a", JVal.num 1), ("b", JVal.str ""), ("c", JVal.str "")] : JObj).length = 3
  ∧ (compute_confidence (.obj [("a", .num 1), ("b", .str ""), ("c", .str "")])).score = 11/50
  ∧ claimObjectScore 1 3 1 = 13/60
  ∧ (compute_confidence (.obj [("a", .num 1), ("b", .str ""), ("c", .str "")])).score ≠
      claimObjectScore 1 3 1 := by
  have hsc : (compute_confidence (.obj [("a", .num 1), ("b", .str ""), ("c", .str "")])).score
      = 11/50 := by
    show round2 _ = _
    norm_num [fieldNonEmpty, fieldNumeric, pyStrip, pyIsSpace, List.filter, round2, roundHalfEven]
  have hcl : claimObjectScore 1 3 1 = 13/60 := by
    norm_num [claimObjectScore]
  refine ⟨by decide, by decide, by decide, hsc, hcl, ?_⟩
  rw [hsc, hcl]
  norm_num

/-- C5 (corrected). The confidence heuristic: scores are always within
[0, 1]; for a non-empty object the score is the claimed formula
`0.5 * (nonEmpty/total) + min(0.3, numeric * 0.05)` clamped to [0, 1] and
then rounded to two decimal places (the rounding is the one correction to
the claim); the empty object yields score 0 with reason
"limited data available"; a list yields exactly
`clamp(0.3 + min(0.4, len * 0.05))` (rounding is the identity there); any
other input yields score 0 with reason "unable to estimate". -/
theorem compute_confidence_spec :
    (∀ kvs : JObj, kvs.isEmpty = false →
      (compute_confidence (.obj kvs)).score =
        round2 (claimObjectScore ((kvs.filter (fun p => fieldNonEmpty p.2)).length)
          kvs.length ((kvs.filter (fun p => fieldNumeric p.2)).length)))
  ∧ (∀ kvs : JObj, 0 ≤ (compute_confidence (.obj kvs)).score ∧
      (compute_confidence (.obj kvs)).score ≤ 1)
  ∧ (∀ xs : List JVal, 0 ≤ (compute_confidence (.arr xs)).score ∧
      (compute_confidence (.arr xs)).score ≤ 1)
  ∧ compute_confidence (.obj []) = { score := 0, reason := "limited data available" }
  ∧ (∀ xs : List JVal, compute_confidence (.arr xs) =
      { score := max 0 (min 1 ((3/10 : ℚ) + min (4/10 : ℚ) ((xs.length : ℚ) * (5/100)))),
        reason := "list length indicates available data" })
  ∧ (∀ v : JVal, isObjOrArr v = false →
      compute_confidence v = { score := 0, reason := "unable to estimate" }) := by
  have hclamp01 : ∀ x : ℚ, 0 ≤ max 0 (min 1 x) ∧ max 0 (min 1 x) ≤ 1 := by
    intro x
    constructor
    · exact le_max_left 0 _
    · exact max_le (by norm_num) (min_le_left 1 x)
  have hlist : ∀ xs : List JVal, compute_confidence (.arr xs) =
      { score := max 0 (min 1 ((3/10 : ℚ) + min (4/10 : ℚ) ((xs.length : ℚ) * (5/100)))),
        reason := "list length indicates available data" } := by
    intro xs
    show Confidence.mk (round2 _) _ = _
    have hr : round2 (max 0 (min 1 ((3/10 : ℚ) + min (4/10 : ℚ) ((xs.length : ℚ) * (5/100)))))
        = max 0 (min 1 ((3/10 : ℚ) + min (4/10 : ℚ) ((xs.length : ℚ) * (5/100)))) := by
      rcases le_total ((xs.length : ℚ) * (5/100)) (4/10) with h | h
      · rw [min_eq_right h]
        have hge : (0 : ℚ) ≤ 3/10 + (xs.length : ℚ) * (5/100) := by positivity
        have hle : (3/10 : ℚ) + (xs.length : ℚ) * (5/100) ≤ 1 := by linarith
        rw [min_eq_right hle, max_eq_right hge]
        exact round2_eq_self _ (30 + 5 * xs.length) (by push_cast; ring)
      · rw [min_eq_left h]
        norm_num
        exact round2_eq_self _ 70 (by norm_num)
    rw [hr]
  refine ⟨?_, ?_, ?_, ?_, hlist, ?_⟩
  · intro kvs hne
    show round2 _ = _
    have hlen : 1 ≤ kvs.length := by
      cases kvs with
      | nil => simp [List.isEmpty] at hne
      | cons a l => simp
    congr 1
    unfold claimObjectScore
    rw [Nat.max_eq_right hlen]
  · intro kvs
    have h := hclamp01 ((1/2 : ℚ) *
      (((kvs.filter (fun p => fieldNonEmpty p.2)).length : ℚ) / ((max 1 kvs.length : ℕ) : ℚ)) +
      min (3/10 : ℚ) (((kvs.filter (fun p => fieldNumeric p.2)).length : ℚ) * (5/100)))
    exact round2_bounds _ h.1 h.2
  · intro xs
    have h := hclamp01 ((3/10 : ℚ) + min (4/10 : ℚ) ((xs.length : ℚ) * (5/100)))
    exact round2_bounds _ h.1 h.2
  · show Confidence.mk _ _ = _
    rw [Confidence.mk.injEq]
    constructor
    · have h0 : round2 0 = 0 := round2_eq_self 0 0 (by norm_num)
      simp only [List.filter_nil, List.length_nil, Nat.cast_zero]
      norm_num [h0]
    · decide
  · intro v hv
    cases v <;> first | rfl | (simp [isObjOrArr] at hv)

/-- Witness for C5 on a singleton object and a non-container input. -/
theorem compute_confidence_spec_witness :
    ([("a", JVal.num 1)] : JObj).isEmpty = false
  ∧ isObjOrArr .null = false
  ∧ (compute_confidence (.obj [("a", .num 1)])).score = round2 (claimObjectScore 1 1 1)
  ∧ compute_confidence .null = { score := 0, reason := "unable to estimate" } := by
  refine ⟨rfl, rfl, ?_, compute_confidence_spec.2.2.2.2.2 .null rfl⟩
  have h := compute_confidence_spec.1 [("a", JVal.num 1)] rfl
  simpa [fieldNonEmpty, fieldNumeric, List.filter] using h

/-- Test `revenue_trend == t` on the financials dict. -/
def finTrendIs (fin : JObj) (t : String) : Bool :=
  ((jget fin "revenue_trend").getD .null).eqStr t

/-- Strictly negative extracted growth rate. -/
def growthNeg (fin : JObj) : Bool :=
  match finGrowthRate fin with
  | some g => decide (g < 0)
  | none => false

/-- Extracted growth rate exactly zero. -/
def growthZero (fin : JObj) : Bool :=
  match finGrowthRate fin with
  | some g => decide (g = 0)
  | none => false

/-- Some collected pricing record has `change_type == "decrease"`. -/
def pricingHasDecrease (pricing : JVal) : Bool :=
  match priceDirections pricing with
  | some ds => ds.any (fun d => d.eqStr "decrease")
  | none => false

theorem pyIterate_orElse_arr (xs : List JVal) :
    pyIterate (pyOrElse (.arr xs) (.arr [])) = some xs := by
  cases xs <;> simp [pyIterate, pyOrElse, JVal.truthy, List.isEmpty]

theorem riskSeverity_fst (trD trS : Bool) (grv : Option ℚ) (dec : Bool) :
    (riskSeverity trD trS grv dec).1 =
      (if dec then "High"
       else if trD || (match grv with | some g => decide (g < 0) | none => false) then "High"
       else if trS || (match grv with | some g => decide (g = 0) | none => false) then "Medium"
       else "Low") := by
  unfold riskSeverity
  by_cases hd : dec <;>
    by_cases h1 : (trD || (match grv with | some g => decide (g < 0) | none => false)) <;>
      by_cases h2 : (trS || (match grv with | some g => decide (g = 0) | none => false)) <;>
        simp [hd, h1, h2] <;> (try (split <;> simp_all))

/-- C6 (confirmed). The risk-severity classifier: on any risk list,
financials object and pricing input on which the classifier returns (its
loop raises only when the pricing list holds a non-dict entry), every risk
receives the same severity — High when some pricing record has
`change_type = "decrease"` (regardless of the growth rules), otherwise High
when the revenue trend is declining or the growth rate is negative,
otherwise Medium when the trend is stable or the growth rate is exactly 0,
otherwise Low. In particular a declining trend marks every risk High with a
reason mentioning "negative growth indicators", and a pricing decrease
forces High even under a growing trend. -/
theorem classify_risk_severity_spec :
    ∀ (risks : List JVal) (fin : JObj) (pricing : JVal) (entries : List RiskEntry),
      classify_risk_severity (.arr risks) fin pricing = some entries →
      entries.length = risks.length
    ∧ (∀ e ∈ entries, e.severity =
        (if pricingHasDecrease pricing then "High"
         else if finTrendIs fin "declining" || growthNeg fin then "High"
         else if finTrendIs fin "stable" || growthZero fin then "Medium"
         else "Low"))
    ∧ (finTrendIs fin "declining" = true →
        ∀ e ∈ entries, e.severity = "High" ∧ pyIn "negative growth indicators" e.reason = true)
    ∧ (pricingHasDecrease pricing = true → ∀ e ∈ entries, e.severity = "High") := by
  intro risks fin pricing entries h
  unfold classify_risk_severity at h
  rcases hpd : priceDirections pricing with _ | ds
  · rw [hpd] at h
    simp at h
  · rw [hpd] at h
    rw [pyIterate_orElse_arr] at h
    simp only [Option.bind_eq_bind, Option.some_bind, Option.pure_def, Option.some.injEq] at h
    have hdec : pricingHasDecrease pricing = (ds.any (fun d => d.eqStr "decrease")) := by
      unfold pricingHasDecrease
      rw [hpd]
    subst h
    refine ⟨by simp, ?_, ?_, ?_⟩
    · intro e he
      rcases List.mem_map.mp he with ⟨r, _, hr⟩
      subst hr
      show (riskSeverity _ _ _ _).1 = _
      rw [riskSeverity_fst, hdec]
      rfl
    · intro htr e he
      rcases List.mem_map.mp he with ⟨r, _, hr⟩
      subst hr
      have htr' : finTrendIs fin "declining" = true := htr
      constructor
      · show (riskSeverity _ _ _ _).1 = _
        rw [riskSeverity_fst]
        unfold finTrendIs at htr'
        rw [htr']
        simp
      · show pyIn _ (String.intercalate ", " _) = true
        unfold riskSeverity
        unfold finTrendIs at htr'
        rw [htr']
        by_cases hd : ds.any (fun d => d.eqStr "decrease") <;> simp [hd] <;> decide
    · intro hdec' e he
      rcases List.mem_map.mp he with ⟨r, _, hr⟩
      subst hr
      show (riskSeverity _ _ _ _).1 = _
      rw [riskSeverity_fst]
      rw [hdec] at hdec'
      rw [hdec']
      rfl

/-- Witness for C6 on the two scenarios named in the claim. -/
theorem classify_risk_severity_spec_witness :
    classify_risk_severity (.arr [.str "r1"]) [("revenue_trend", JVal.str "declining")]
        (.obj [("change_type", .str "increase")]) =
      some [{ risk := "r1", severity := "High", reason := "negative growth indicators" }]
  ∧ finTrendIs [("revenue_trend", JVal.str "declining")] "declining" = true
  ∧ (∀ e ∈ [({ risk := "r1", severity := "High", reason := "negative growth indicators" } : RiskEntry)],
      e.severity = "High" ∧ pyIn "negative growth indicators" e.reason = true)
  ∧ classify_risk_severity (.arr [.str "r1"]) [("revenue_trend", JVal.str "growing")]
        (.obj [("change_type", .str "decrease")]) =
      some [{ risk := "r1", severity := "High", reason := "pricing decrease detected" }]
  ∧ pricingHasDecrease (.obj [("change_type", .str "decrease")]) = true
  ∧ (∀ e ∈ [({ risk := "r1", severity := "High", reason := "pricing decrease detected" } : RiskEntry)],
      e.severity = "High") := by
  have h1 : classify_risk_severity (.arr [.str "r1"]) [("revenue_trend", JVal.str "declining")]
      (.obj [("change_type", .str "increase")]) =
      some [{ risk := "r1", severity := "High", reason := "negative growth indicators" }] := by
    decide
  have h2 : classify_risk_severity (.arr [.str "r1"]) [("revenue_trend", JVal.str "growing")]
      (.obj [("change_type", .str "decrease")]) =
      some [{ risk := "r1", severity := "High", reason := "pricing decrease detected" }] := by
    decide
  refine ⟨h1, by decide, ?_, h2, by decide, ?_⟩
  · exact (classify_risk_severity_spec [.str "r1"] [("revenue_trend", JVal.str "declining")]
      (.obj [("change_type", .str "increase")]) _ h1).2.2.1 (by decide)
  · exact (classify_risk_severity_spec [.str "r1"] [("revenue_trend", JVal.str "growing")]
      (.obj [("change_type", .str "decrease")]) _ h2).2.2.2 (by decide)

/-- The positive-outlook condition of the claim, over the extracted
ingredients: growth strictly positive, sentiment score at least 0.3, no
high-severity risk, trend not declining. -/
def outlookPositiveCond (grv : Option ℚ) (sScoreV : JVal) (hc : Nat) (declining : Bool) : Prop :=
  ∃ g s, grv = some g ∧ 0 < g ∧ numCompareVal sScoreV = some s ∧ (3/10 : ℚ) ≤ s
    ∧ hc = 0 ∧ declining = false

/-- The negative-outlook condition of the claim: growth negative, or trend
declining, or sentiment score under 0.2, or some high-severity risk. -/
def outlookNegativeCond (grv : Option ℚ) (sScoreV : JVal) (hc : Nat) (declining : Bool) : Prop :=
  (∃ g, grv = some g ∧ g < 0) ∨ declining = true ∨
    (∃ s, numCompareVal sScoreV = some s ∧ s < (2/10 : ℚ)) ∨ 0 < hc

theorem execOutlook_spec (grv : Option ℚ) (declining : Bool) (sScoreV : JVal) (hc : Nat)
    (out : String) (h : execOutlook grv declining sScoreV hc = some out) :
    (out = "Positive" ↔ outlookPositiveCond grv sScoreV hc declining)
  ∧ (out = "Negative" ↔ outlookNegativeCond grv sScoreV hc declining)
  ∧ (out = "Neutral" ↔
      ¬outlookPositiveCond grv sScoreV hc declining ∧
        ¬outlookNegativeCond grv sScoreV hc declining) := by
  unfold execOutlook at h
  rcases grv with _ | g
  · -- no growth rate: the positive branch yields false without touching the score
    by_cases hdecl : declining = true
    · simp [hdecl] at h
      subst h
      refine ⟨?_, ?_, ?_⟩ <;>
        simp [outlookPositiveCond, outlookNegativeCond, hdecl]
    · rcases hs : numCompareVal sScoreV with _ | s
      · simp [hdecl, hs] at h
      · simp [hdecl, hs] at h
        by_cases h02 : s < (2/10 : ℚ)
        · simp [h02] at h
          subst h
          refine ⟨?_, ?_, ?_⟩ <;>
            simp [outlookPositiveCond, outlookNegativeCond, hdecl, hs]
          · exact Or.inl h02
          · intro hcontra
            exact absurd h02 (by linarith)
        · by_cases hhc : 0 < hc
          · simp [h02, hhc] at h
            subst h
            refine ⟨?_, ?_, ?_⟩ <;>
              simp [outlookPositiveCond, outlookNegativeCond, hdecl, hs, hhc, h02]
          · simp [h02, hhc] at h
            subst h
            refine ⟨?_, ?_, ?_⟩ <;>
              simp [outlookPositiveCond, outlookNegativeCond, hdecl, hs, hhc, h02]
  · by_cases hg : 0 < g
    · have hneg : ¬(g < 0) := by linarith
      rcases hs : numCompareVal sScoreV with _ | s
      · simp [hg, hs] at h
      · by_cases hdecl : declining = true
        · simp [hg, hs, hneg, hdecl] at h
          subst h
          refine ⟨?_, ?_, ?_⟩ <;>
            simp [outlookPositiveCond, outlookNegativeCond, hdecl, hs, hneg]
        · by_cases h02 : s < (2/10 : ℚ)
          · have h03 : ¬((3/10 : ℚ) ≤ s) := by linarith
            simp [hg, hs, hneg, hdecl, h02] at h
            subst h
            refine ⟨?_, ?_, ?_⟩ <;>
              simp [outlookPositiveCond, outlookNegativeCond, hdecl, hs, hneg, h02, h03]
          · by_cases hhc : 0 < hc
            · simp [hg, hs, hneg, hdecl, h02, hhc] at h
              subst h
              refine ⟨?_, ?_, ?_⟩ <;>
                (simp [outlookPositiveCond, outlookNegativeCond, hdecl, hs, hneg, h02, hhc];
                  try omega)
            · have hhc0 : hc = 0 := by omega
              by_cases h03 : (3/10 : ℚ) ≤ s
              · simp [hg, hs, hneg, hdecl, h02, hhc, hhc0, h03] at h
                subst h
                refine ⟨?_, ?_, ?_⟩ <;>
                  simp [outlookPositiveCond, outlookNegativeCond, hdecl, hs, hneg, h02,
                    hhc0, h03, hg]
              · simp [hg, hs, hneg, hdecl, h02, hhc, h03] at h
                subst h
                refine ⟨?_, ?_, ?_⟩ <;>
                  simp [outlookPositiveCond, outlookNegativeCond, hdecl, hs, hneg, h02,
                    hhc0, h03]
    · by_cases hneg : g < 0
      · simp [hg, hneg] at h
        subst h
        refine ⟨?_, ?_, ?_⟩ <;>
          simp [outlookPositiveCond, outlookNegativeCond, hneg, hg]
      · by_cases hdecl : declining = true
        · simp [hg, hneg, hdecl] at h
          subst h
          refine ⟨?_, ?_, ?_⟩ <;>
            simp [outlookPositiveCond, outlookNegativeCond, hneg, hg, hdecl]
        · rcases hs : numCompareVal sScoreV with _ | s
          · simp [hg, hneg, hdecl, hs] at h
          · by_cases h02 : s < (2/10 : ℚ)
            · simp [hg, hneg, hdecl, hs, h02] at h
              subst h
              refine ⟨?_, ?_, ?_⟩ <;>
                simp [outlookPositiveCond, outlookNegativeCond, hneg, hg, hdecl, hs, h02]
            · by_cases hhc : 0 < hc
              · simp [hg, hneg, hdecl, hs, h02, hhc] at h
                subst h
                refine ⟨?_, ?_, ?_⟩ <;>
                  simp [outlookPositiveCond, outlookNegativeCond, hneg, hg, hdecl, hs,
                    h02, hhc]
              · simp [hg, hneg, hdecl, hs, h02, hhc] at h
                subst h
                refine ⟨?_, ?_, ?_⟩ <;>
                  simp [outlookPositiveCond, outlookNegativeCond, hneg, hg, hdecl, hs,
                    h02, hhc]

/-- C7 (confirmed). The computed `overall_outlook` is "Positive" exactly
when growth is positive, the sentiment score is at least 0.3, no classified
risk is high-severity, and the trend is not declining; it is "Negative"
exactly when growth is negative, or the trend is declining, or the
sentiment score is under 0.2, or some risk is high-severity; it is
"Neutral" otherwise; and whenever both condition sets held simultaneously
the outlook would be "Negative" (negative wins — in fact the two condition
sets are mutually exclusive). -/
theorem overall_outlook_spec :
    ∀ (results : JObj) (grv : Option ℚ) (declining : Bool) (sScoreV : JVal) (hc : Nat)
      (out : String),
      execParts results = some (grv, declining, sScoreV, hc) →
      build_executive_summary_outlook results = some out →
      (out = "Positive" ↔ outlookPositiveCond grv sScoreV hc declining)
    ∧ (out = "Negative" ↔ outlookNegativeCond grv sScoreV hc declining)
    ∧ (out = "Neutral" ↔
        ¬outlookPositiveCond grv sScoreV hc declining ∧
          ¬outlookNegativeCond grv sScoreV hc declining)
    ∧ (outlookPositiveCond grv sScoreV hc declining ∧
        outlookNegativeCond grv sScoreV hc declining → out = "Negative") := by
  intro results grv declining sScoreV hc out hparts hout
  unfold build_executive_summary_outlook at hout
  rw [hparts] at hout
  simp only [Option.some_bind] at hout
  have h := execOutlook_spec grv declining sScoreV hc out hout
  exact ⟨h.1, h.2.1, h.2.2, fun hboth => h.2.1.mpr hboth.2⟩

/-- Witness for C7 on an empty results object (no growth data, default
sentiment score 0, no risks): the outlook is Negative because the score is
below 0.2. -/
theorem overall_outlook_spec_witness :
    let results : JObj :=
      [("revenue_turnover", .obj [("agent_output", .obj [("growth_rate", .num (-1))])])]
    execParts results = some (some (-1), false, .num 0, 0)
  ∧ build_executive_summary_outlook results = some "Negative"
  ∧ ("Negative" = "Negative" ↔ outlookNegativeCond (some (-1)) (.num 0) 0 false) := by
  refine ⟨rfl, rfl, ?_⟩
  exact (overall_outlook_spec
    [("revenue_turnover", .obj [("agent_output", .obj [("growth_rate", .num (-1))])])]
    (some (-1)) false (.num 0) 0 "Negative" rfl rfl).2.1

theorem filter_filter_ne {α : Type} (l : List α) (p q : α → Bool)
    (h : ∀ a, q a = true → p a = false) : (l.filter p).filter q = [] := by
  rw [List.filter_filter]
  apply List.filter_eq_nil_iff.mpr
  intro a _
  intro hcontra
  simp only [Bool.and_eq_true] at hcontra
  have hq : q a = true := by tauto
  have hp : p a = true := by tauto
  rw [h a hq] at hp
  cases hp

/-- Replace-then-insert leaves exactly one row under the inserted key. -/
theorem countP_store_key (rows : List MRow) (row : MRow) :
    ((rows.filter (fun r => r.storage_key != row.storage_key) ++ [row]).filter
      (fun r => r.storage_key == row.storage_key)).length = 1 := by
  rw [List.filter_append]
  have h1 : (rows.filter (fun r => r.storage_key != row.storage_key)).filter
      (fun r => r.storage_key == row.storage_key) = [] := by
    apply filter_filter_ne
    intro a ha
    simp at ha ⊢
    exact ha
  rw [h1]
  simp

/-- C3 (confirmed). Content-addressed idempotence of `ManagedStorage.store`:
two stores of the same `(entity, agent_type, data)` (whatever the other
arguments) return the same storage key — the first 16 hex characters of
`sha256(entity:agent_type:md5(sorted-json(data)))` over the external hash
functions — and afterwards the main table holds exactly one row under that
key: the second store replaced the first in place. -/
theorem mstore_idempotent (H : HashFns) (s : MState) (now now2 : ℤ)
    (entity agent_type : String) (data : JObj) (st st2 : StorageType)
    (sv sv2 : Option String) (c c2 : ℚ) (h h2 : Option ℤ) (idx idx2 : List String) :
    (mstore H s now entity agent_type data st sv c h idx).1 =
      (mstore H (mstore H s now entity agent_type data st sv c h idx).2 now2
        entity agent_type data st2 sv2 c2 h2 idx2).1
  ∧ (mstore H s now entity agent_type data st sv c h idx).1 =
      strTake (H.sha256hex (entity ++ ":" ++ agent_type ++ ":" ++
        H.md5hex (sortedJson (.obj data)))) 16
  ∧ ((mstore H (mstore H s now entity agent_type data st sv c h idx).2 now2
        entity agent_type data st2 sv2 c2 h2 idx2).2.rows.filter
      (fun r => r.storage_key ==
        (mstore H s now entity agent_type data st sv c h idx).1)).length = 1 := by
  refine ⟨rfl, rfl, ?_⟩
  exact countP_store_key (mstore H s now entity agent_type data st sv c h idx).2.rows { storage_key := generate_storage_key H entity agent_type (hash_data H data), entity := entity, agent_type := agent_type, storage_type := st2.value, data := .obj data, schema_version := sv2.getD "1.0", confidence_score := c2, created_at := now2, expires_at := expiryAt now2 h2 }

/-- C10 (confirmed, implicit). Storing with `expires_in_hours = 0` stores a
null expiry in both stores — Python `if expires_in_hours:` treats 0 like
`None` — so the record never expires: `get_fact` and `get_all_facts` return
it at every later read time, and the managed item is returned by default
(non-expired) `retrieve` calls at every later time (whenever it fits the
query limit). -/
theorem zero_expiry_hours_never_expires :
    (∀ (tbl : FactTable) (t0 : ℤ) (entity fact_type : String) (fact_data : JVal)
        (c : ℚ) (src : Option String),
      expiryAt t0 (some 0) = none
      ∧ (∀ now : ℤ, get_fact (store_fact tbl t0 entity fact_type fact_data c src (some 0))
          now entity fact_type =
          some { data := fact_data, confidence_score := c, source := src, expires_at := none })
      ∧ (∀ now : ℤ,
          ({ fact_type := fact_type, data := fact_data, confidence_score := c,
             source := src } : AllFactView) ∈
            get_all_facts (store_fact tbl t0 entity fact_type fact_data c src (some 0))
              now entity))
  ∧ (∀ (H : HashFns) (s : MState) (t0 : ℤ) (entity agent_type : String) (data : JObj)
        (st : StorageType) (sv : Option String) (c : ℚ) (idx : List String),
      (∀ r ∈ (mstore H s t0 entity agent_type data st sv c (some 0) idx).2.rows,
        r.storage_key = (mstore H s t0 entity agent_type data st sv c (some 0) idx).1 →
        r.expires_at = none)
      ∧ (∀ (now : ℤ) (limit : Nat), 0 ≤ c →
          ((mstore H s t0 entity agent_type data st sv c (some 0) idx).2.rows.filter
            (mretrieveFilter now (some entity) (some agent_type) none 0 false)).length ≤ limit →
          ∃ v ∈ mretrieve (mstore H s t0 entity agent_type data st sv c (some 0) idx).2
              now (some entity) (some agent_type) none limit 0 false,
            v.storage_key = (mstore H s t0 entity agent_type data st sv c (some 0) idx).1
            ∧ v.data = .obj data)) := by
  constructor
  · intro tbl t0 entity fact_type fact_data c src
    refine ⟨rfl, ?_, ?_⟩
    · intro now
      unfold get_fact store_fact
      rw [List.filter_append]
      rw [filter_filter_ne _ _ _ (fun (r : FactRow) hq => by
        simp at hq ⊢
        tauto)]
      simp [expiryAt, notExpired, FactRow.toView]
    · intro now
      unfold get_all_facts store_fact
      apply List.mem_map.mpr
      have hrow : ({ entity := entity, fact_type := fact_type, fact_data := fact_data, confidence_score := c, source := src, created_at := t0, updated_at := t0, expires_at := expiryAt t0 (some 0) } : FactRow).toAllView = { fact_type := fact_type, data := fact_data, confidence_score := c, source := src } := rfl
      refine ⟨_, ?_, hrow⟩
      rw [mem_sortBy]
      apply List.mem_filter.mpr
      refine ⟨List.mem_append_right _ (by simp), ?_⟩
      simp [expiryAt, notExpired]
  · intro H s t0 entity agent_type data st sv c idx
    constructor
    · intro r hr hkey
      rcases List.mem_append.mp hr with hl | hnew
      · exact absurd hkey (by simpa using (List.mem_filter.mp hl).2)
      · simp at hnew
        rw [hnew]
        simp [expiryAt]
    · intro now limit hc hlim
      refine ⟨MRow.toView { storage_key := generate_storage_key H entity agent_type (hash_data H data), entity := entity, agent_type := agent_type, storage_type := st.value, data := .obj data, schema_version := sv.getD "1.0", confidence_score := c, created_at := t0, expires_at := expiryAt t0 (some 0) }, ?_, rfl, rfl⟩
      unfold mretrieve
      apply List.mem_map.mpr
      refine ⟨_, ?_, rfl⟩
      rw [List.take_of_length_le (by rw [length_sortBy]; exact hlim)]
      rw [mem_sortBy]
      apply List.mem_filter.mpr
      constructor
      · exact List.mem_append_right _ (by simp)
      · unfold mretrieveFilter strFilter
        simp only [Bool.and_eq_true]
        refine ⟨⟨⟨⟨?_, ?_⟩, trivial⟩, by simp [hc]⟩, by simp [expiryAt, notExpired]⟩
        · split_ifs <;> simp
        · split_ifs <;> simp

/-- Witness for C10 on empty stores and identity hash functions. -/
theorem zero_expiry_hours_never_expires_witness :
    get_fact (store_fact [] 0 "acme" "profile" .null 0 none (some 0)) 100 "acme" "profile" =
      some { data := .null, confidence_score := 0, source := none, expires_at := none }
  ∧ (0 ≤ (0 : ℚ))
  ∧ (let H : HashFns := { sha256hex := fun s => s, md5hex := fun s => s }
     ((mstore H ⟨[], []⟩ 0 "acme" "ov" [] .OUTPUT none 0 (some 0) []).2.rows.filter
        (mretrieveFilter 100 (some "acme") (some "ov") none 0 false)).length ≤ 10)
  ∧ (let H : HashFns := { sha256hex := fun s => s, md5hex := fun s => s }
     ∃ v ∈ mretrieve (mstore H ⟨[], []⟩ 0 "acme" "ov" [] .OUTPUT none 0 (some 0) []).2
        100 (some "acme") (some "ov") none 10 0 false,
      v.storage_key = (mstore H ⟨[], []⟩ 0 "acme" "ov" [] .OUTPUT none 0 (some 0) []).1
      ∧ v.data = .obj []) := by
  refine ⟨(zero_expiry_hours_never_expires.1 [] 0 "acme" "profile" .null 0 none).2.1 100,
    by decide, by decide, ?_⟩
  exact ((zero_expiry_hours_never_expires.2
    { sha256hex := fun s => s, md5hex := fun s => s } ⟨[], []⟩ 0 "acme" "ov" []
    .OUTPUT none 0 []).2 100 10 (by decide) (by decide))

/-- C4 (confirmed). Expiry monotonicity: a fact or managed item stored with
a non-zero `expiresInHours = h` is excluded from every default read at any
time `now ≥ created_at + h` — `get_fact` reports it absent, `get_all_facts`
omits it, and `ManagedStorage.retrieve` with `include_expired = false` omits
it under every filter combination — while the same retrieve call with
`include_expired = true` returns it (whenever its confidence passes the
filter and the matching rows fit in the query limit). -/
theorem expired_records_excluded :
    (∀ (tbl : FactTable) (t0 h now : ℤ) (entity fact_type : String) (fact_data : JVal)
        (c : ℚ) (src : Option String),
      h ≠ 0 → t0 + h ≤ now →
      get_fact (store_fact tbl t0 entity fact_type fact_data c src (some h))
          now entity fact_type = none
      ∧ (∀ v ∈ get_all_facts (store_fact tbl t0 entity fact_type fact_data c src (some h))
            now entity, v.fact_type ≠ fact_type))
  ∧ (∀ (H : HashFns) (s : MState) (t0 h now : ℤ) (entity agent_type : String) (data : JObj)
        (st : StorageType) (sv : Option String) (c : ℚ) (idx : List String),
      h ≠ 0 → t0 + h ≤ now →
      (∀ (e a : Option String) (sf : Option StorageType) (limit : Nat) (mc : ℚ),
        ∀ v ∈ mretrieve (mstore H s t0 entity agent_type data st sv c (some h) idx).2
            now e a sf limit mc false,
          v.storage_key ≠ (mstore H s t0 entity agent_type data st sv c (some h) idx).1)
      ∧ (∀ limit : Nat, 0 ≤ c →
          ((mstore H s t0 entity agent_type data st sv c (some h) idx).2.rows.filter
            (mretrieveFilter now (some entity) (some agent_type) none 0 true)).length ≤ limit →
          ∃ v ∈ mretrieve (mstore H s t0 entity agent_type data st sv c (some h) idx).2
              now (some entity) (some agent_type) none limit 0 true,
            v.storage_key = (mstore H s t0 entity agent_type data st sv c (some h) idx).1
            ∧ v.data = .obj data)) := by
  constructor
  · intro tbl t0 h now entity fact_type fact_data c src hh hnow
    have hexp : expiryAt t0 (some h) = some (t0 + h) := by simp [expiryAt, hh]
    have hdead : notExpired now (some (t0 + h)) = false := by
      simp [notExpired]
      omega
    constructor
    · unfold get_fact store_fact
      rw [List.filter_append]
      rw [filter_filter_ne _ _ _ (fun (r : FactRow) hq => by
        simp at hq ⊢
        tauto)]
      simp [hexp, hdead]
    · intro v hv
      unfold get_all_facts store_fact at hv
      rcases List.mem_map.mp hv with ⟨r, hr, hview⟩
      rw [mem_sortBy] at hr
      rcases List.mem_filter.mp hr with ⟨hmem, hlive⟩
      rcases List.mem_append.mp hmem with hold | hnew
      · have := (List.mem_filter.mp hold).2
        simp at this
        intro hft
        have hl2 := List.mem_filter.mp hr
        have hent := hl2.2
        simp only [Bool.and_eq_true] at hent
        have hent := hent.1
        simp at hent
        rcases this with hne | hnf
        · exact hne hent
        · apply hnf
          rw [← hview] at hft
          simpa [FactRow.toAllView] using hft
      · simp at hnew
        rw [hnew] at hlive
        simp [hexp, hdead] at hlive
  · intro H s t0 h now entity agent_type data st sv c idx hh hnow
    have hexp : expiryAt t0 (some h) = some (t0 + h) := by simp [expiryAt, hh]
    have hdead : notExpired now (some (t0 + h)) = false := by
      simp [notExpired]
      omega
    constructor
    · intro e a sf limit mc v hv
      unfold mretrieve at hv
      rcases List.mem_map.mp hv with ⟨r, hr, hview⟩
      have hr2 := List.mem_of_mem_take hr
      rw [mem_sortBy] at hr2
      rcases List.mem_filter.mp hr2 with ⟨hmem, hmatch⟩
      rcases List.mem_append.mp hmem with hold | hnew
      · have hkey := (List.mem_filter.mp hold).2
        simp at hkey
        rw [← hview]
        exact hkey
      · simp at hnew
        rw [hnew] at hmatch
        unfold mretrieveFilter at hmatch
        simp [hexp, hdead] at hmatch
    · intro limit hc hlim
      refine ⟨MRow.toView { storage_key := generate_storage_key H entity agent_type (hash_data H data), entity := entity, agent_type := agent_type, storage_type := st.value, data := .obj data, schema_version := sv.getD "1.0", confidence_score := c, created_at := t0, expires_at := expiryAt t0 (some h) }, ?_, rfl, rfl⟩
      unfold mretrieve
      apply List.mem_map.mpr
      refine ⟨_, ?_, rfl⟩
      rw [List.take_of_length_le (by rw [length_sortBy]; exact hlim)]
      rw [mem_sortBy]
      apply List.mem_filter.mpr
      constructor
      · exact List.mem_append_right _ (by simp)
      · unfold mretrieveFilter strFilter
        simp only [Bool.and_eq_true]
        refine ⟨⟨⟨⟨?_, ?_⟩, trivial⟩, by simp [hc]⟩, by simp⟩
        · split_ifs <;> simp
        · split_ifs <;> simp

/-- Witness for C4: a fact and a managed item stored at time 0 with a
one-hour expiry, read at time 1. -/
theorem expired_records_excluded_witness :
    ((1 : ℤ) ≠ 0) ∧ ((0 : ℤ) + 1 ≤ 1) ∧ (0 ≤ (0 : ℚ))
  ∧ get_fact (store_fact [] 0 "acme" "profile" .null 0 none (some 1)) 1 "acme" "profile" = none
  ∧ (let H : HashFns := { sha256hex := fun s => s, md5hex := fun s => s }
     ∃ v ∈ mretrieve (mstore H ⟨[], []⟩ 0 "acme" "ov" [] .OUTPUT none 0 (some 1) []).2
        1 (some "acme") (some "ov") none 10 0 true,
      v.storage_key = (mstore H ⟨[], []⟩ 0 "acme" "ov" [] .OUTPUT none 0 (some 1) []).1
      ∧ v.data = .obj []) := by
  refine ⟨by decide, by decide, by decide,
    (expired_records_excluded.1 [] 0 1 1 "acme" "profile" .null 0 none
      (by decide) (by decide)).1, ?_⟩
  exact ((expired_records_excluded.2
    { sha256hex := fun s => s, md5hex := fun s => s } ⟨[], []⟩ 0 1 1 "acme" "ov" []
    .OUTPUT none 0 [] (by decide) (by decide)).2 10 (by decide) (by decide))

theorem find?_map_key (l : List (String × Job)) (f : String × Job → String × Job)
    (hf : ∀ p, (f p).1 = p.1) (id2 : String) :
    (l.map f).find? (fun p => p.1 == id2) = (l.find? (fun p => p.1 == id2)).map f := by
  induction l with
  | nil => rfl
  | cons p ps ih =>
    simp only [List.map_cons, List.find?]
    rw [hf p]
    by_cases hp : p.1 == id2
    · simp [hp]
    · simp only [hp]
      simpa using ih

theorem get_job_update (s : JobStore) (job_id status : String) (result : Option JVal)
    (now : ℤ) (id2 : String) :
    get_job (update_job s job_id status result now) id2 =
      (get_job s id2).map (fun j =>
        if id2 == job_id then
          { j with status := status, updated_at := now, result := if (match result with | some r => r.truthy | none => false) then result else j.result }
        else j) := by
  unfold get_job update_job
  rw [find?_map_key _ _ (fun p => by by_cases h : p.1 == job_id <;> simp [h]) id2]
  rcases hf : s.jobs.find? (fun p => p.1 == id2) with _ | p0
  · rw [hf]
    rfl
  · have hp0 := List.find?_some hf
    have hid : p0.1 = id2 := by simpa using hp0
    rw [hf]
    simp only [Option.map_some]
    by_cases hj : p0.1 == job_id
    · have hb : (id2 == job_id) = true := by
        rw [← hid]
        exact hj
      have hjeq : p0.1 = job_id := by simpa using hj
      simp [hj, hb, hjeq]
    · have hb : (id2 == job_id) = false := by
        rw [← hid]
        simpa using hj
      have hjne : ¬(p0.1 = job_id) := by simpa using hj
      simp [hj, hb, hjne]

theorem get_job_update_same (s : JobStore) (job_id status : String) (result : Option JVal)
    (now : ℤ) (j0 : Job) (h : get_job s job_id = some j0) :
    get_job (update_job s job_id status result now) job_id =
      some { j0 with status := status, updated_at := now, result := if (match result with | some r => r.truthy | none => false) then result else j0.result } := by
  rw [get_job_update, h]
  simp

theorem get_job_update_other (s : JobStore) (job_id status : String) (result : Option JVal)
    (now : ℤ) (id2 : String) (hne : id2 ≠ job_id) :
    get_job (update_job s job_id status result now) id2 = get_job s id2 := by
  rw [get_job_update]
  rcases get_job s id2 with _ | j0 <;> simp [hne]

theorem get_job_create (s : JobStore) (job_id entity : String) (now : ℤ) (id2 : String)
    (j : Job) (h : get_job (create_job s job_id entity now) id2 = some j) :
    get_job s id2 = some j ∨ (j.status = "queued" ∧ j.result = none) := by
  unfold get_job create_job at h
  unfold get_job
  rw [List.find?_append] at h
  rcases hf : s.jobs.find? (fun p => p.1 == id2) with _ | p0
  · rw [hf] at h
    simp only [Option.none_or] at h
    right
    by_cases hk : (job_id == id2)
    · simp [List.find?, hk] at h
      rw [← h]
      exact ⟨rfl, rfl⟩
    · simp [List.find?, hk] at h
  · rw [hf] at h
    simp only [Option.or] at h
    left
    rw [hf]
    exact h

/-- Invariant of the job ledger: a job that is still `queued` or
`analyzing` has no stored result (results are only written together with a
`completed` or `failed` status). -/
theorem jreach_result_none {s : JobStore} (hreach : JReach s) :
    ∀ job_id j, get_job s job_id = some j →
      (j.status = "queued" ∨ j.status = "analyzing") → j.result = none := by
  induction hreach with
  | init =>
    intro id j hj _
    simp [get_job] at hj
  | create s job_id entity now hr hfresh ih =>
    intro id j hj hst
    rcases get_job_create s job_id entity now id j hj with hold | hnew
    · exact ih id j hold hst
    · exact hnew.2
  | markAnalyzing s job_id now hr hq ih =>
    intro id j hj hst
    by_cases hid : id = job_id
    · subst hid
      rcases hold : get_job s id with _ | j0
      · rw [get_job_update, hold] at hj
        exact Option.noConfusion hj
      · rw [get_job_update_same s id "analyzing" none now j0 hold] at hj
        have hj2 := Option.some.inj hj
        have hq0 : j0.status = "queued" := hq j0 hold
        have hres0 : j0.result = none := ih id j0 hold (Or.inl hq0)
        rw [← hj2]
        simpa using hres0
    · rw [get_job_update_other s job_id "analyzing" none now id hid] at hj
      exact ih id j hj hst
  | complete s job_id r now hr ih =>
    intro id j hj hst
    by_cases hid : id = job_id
    · subst hid
      rcases hold : get_job s id with _ | j0
      · rw [get_job_update, hold] at hj
        exact Option.noConfusion hj
      · rw [get_job_update_same s id "completed" (some r) now j0 hold] at hj
        have hj2 := Option.some.inj hj
        rw [← hj2] at hst
        simp at hst
    · rw [get_job_update_other s job_id "completed" (some r) now id hid] at hj
      exact ih id j hj hst
  | fail s job_id r now hr ih =>
    intro id j hj hst
    by_cases hid : id = job_id
    · subst hid
      rcases hold : get_job s id with _ | j0
      · rw [get_job_update, hold] at hj
        exact Option.noConfusion hj
      · rw [get_job_update_same s id "failed" (some r) now j0 hold] at hj
        have hj2 := Option.some.inj hj
        rw [← hj2] at hst
        simp at hst
    · rw [get_job_update_other s job_id "failed" (some r) now id hid] at hj
      exact ih id j hj hst

/-- Counterexample to C8 as stated: in the reachable store holding a single
job that is still `analyzing`, the result column is still NULL, so every
section endpoint answers with the 404 "Analysis results not found" error —
not with the claimed HTTP 409 "Analysis not complete" body (the overview
group never checks the status at all, and the status-checking group tests
the result first). -/
theorem section_endpoints_409_counterexample :
    (get_job (update_job (create_job ⟨[]⟩ "job1" "Acme" 0) "job1" "analyzing" none 1)
        "job1").map Job.status = some "analyzing"
  ∧ sectionNoStatusCheck (update_job (create_job ⟨[]⟩ "job1" "Acme" 0) "job1" "analyzing" none 1)
      "job1" (fun _ => some .null) = some .notFound
  ∧ sectionWithStatusCheck (update_job (create_job ⟨[]⟩ "job1" "Acme" 0) "job1" "analyzing" none 1)
      "job1" (fun _ => some .null) = some .notFound
  ∧ SectionResponse.notFound ≠ SectionResponse.notComplete := by
  refine ⟨rfl, rfl, rfl, ?_⟩
  intro h
  cases h

/-- C8 (corrected). For every job store reachable through the program and
every job still `queued` or `analyzing`, each report-section endpoint — the
overview group that checks only the result, the executive-summary group
that also checks the status, and the alerts endpoint — returns the 404
not-found error response (the result column is NULL until completion or
failure), never a 409 and never a populated section; the body that would
build the section payload is never run. -/
theorem section_endpoints_not_ready (s : JobStore) (hreach : JReach s) (job_id : String)
    (j : Job) (hj : get_job s job_id = some j)
    (hst : j.status = "queued" ∨ j.status = "analyzing") :
    (∀ body, sectionNoStatusCheck s job_id body = some .notFound)
  ∧ (∀ body, sectionWithStatusCheck s job_id body = some .notFound)
  ∧ (∀ body, alertsEndpoint s job_id body = some (.notFound, s)) := by
  have hres : j.result = none := jreach_result_none hreach job_id j hj hst
  refine ⟨?_, ?_, ?_⟩ <;> intro body <;>
    simp [sectionNoStatusCheck, sectionWithStatusCheck, alertsEndpoint, hj, hres, resultTruthy]

/-- Witness for C8 on the reachable single-job store in the `analyzing`
state. -/
theorem section_endpoints_not_ready_witness :
    get_job (update_job (create_job ⟨[]⟩ "job1" "Acme" 0) "job1" "analyzing" none 1) "job1" =
      some { entity := "Acme", status := "analyzing", result := none,
             created_at := 0, updated_at := 1 }
  ∧ sectionNoStatusCheck (update_job (create_job ⟨[]⟩ "job1" "Acme" 0) "job1" "analyzing" none 1)
      "job1" (fun _ => some (.str "section")) = some .notFound := by
  have hreach : JReach (update_job (create_job ⟨[]⟩ "job1" "Acme" 0) "job1" "analyzing" none 1) :=
    JReach.markAnalyzing _ "job1" 1
      (JReach.create ⟨[]⟩ "job1" "Acme" 0 JReach.init rfl)
      (fun j hj => by rw [← Option.some.inj hj])
  refine ⟨rfl, ?_⟩
  exact (section_endpoints_not_ready _ hreach "job1"
    { entity := "Acme", status := "analyzing", result := none, created_at := 0, updated_at := 1 }
    rfl (Or.inr rfl)).1 (fun _ => some (.str "section"))

end RivalScan
